import Mathlib

/-!
Verification of the live-navigation guidance engine of the gps-circuits-scolaires
repository against its natural-language specification.

The definitions below are a shallow embedding of the TypeScript source:
  - src/pages/NavLive.tsx   (guidance state machine, off-route detection,
    instruction normalization, point-to-polyline distance),
  - src/pages/Portal.tsx    (recording session: trace throttling, add-stop),
  - supabase/functions/circuits-api/index.ts (save_trace handler).

Numbers that the source manipulates as JS floats are modelled as exact
rationals (ℚ); milliseconds timestamps as integers (ℤ).  JS nullable values
are modelled as Option.  Each definition carries a comment pointing to the
source lines it embeds.
-/

namespace NavModel

/-- Model of JS Math.round: round half toward positive infinity,
so Math.round x = ⌊x + 1/2⌋. -/
def jsRound (q : ℚ) : ℤ := ⌊q + 1/2⌋

/-- Model of the banner rounding Math.round(shown / 5) * 5
(NavLive.tsx line 683). -/
def round5 (m : ℤ) : ℤ := 5 * jsRound ((m : ℚ) / 5)

/-- Embedding of warnStopMeters (NavLive.tsx lines 381-385):
the adaptive stop-warning threshold, 200 m when the current speed is at
least 80 km/h (kmh = v * 3.6) and 150 m otherwise; a missing speed counts
as 0 km/h.  speedRef.current is passed as the argument (m/s). -/
def warnStopMeters (speed : Option ℚ) : ℤ :=
  let kmh : ℚ := match speed with
    | some v => v * (36 / 10)
    | none => 0
  if 80 ≤ kmh then 200 else 150

/-! ### Off-route detection and reroute (NavLive.tsx lines 624-658)

One invocation of the reroute effect for one position tick.  The effect
only runs when the run is live (running, a fix and a target exist, not
finished) and a governing polyline with at least two points exists; the
tick function below models the body under those guards.  The distance
from the fix to the governing polyline (minDistanceToPolylineMeters) is
the dLine input. -/

/-- Mutable state of the off-route detector: offRouteStrikeRef and
lastRerouteAtRef (NavLive.tsx lines 347-348). -/
structure OffState where
  strike : ℕ
  lastRerouteAt : ℤ
deriving DecidableEq, Repr

/-- Inputs read by one invocation of the reroute effect: the polyline
distance of the current fix, accRef.current, speedRef.current and
Date.now(). -/
structure OffInput where
  dLine : Option ℚ
  acc : Option ℚ
  speed : Option ℚ
  now : ℤ
deriving DecidableEq, Repr

/-- Accuracy gate (NavLive.tsx lines 635-636): a tick is discarded when
the reported accuracy is worse than 35 m. -/
def accGated (i : OffInput) : Bool :=
  match i.acc with
  | some a => decide (35 < a)
  | none => false

/-- Speed gate (NavLive.tsx lines 638-639): a tick is discarded when the
reported speed is below 1.2 m/s. -/
def speedGated (i : OffInput) : Bool :=
  match i.speed with
  | some v => decide (v < 12 / 10)
  | none => false

/-- Off predicate (NavLive.tsx line 643): dLine != null && dLine > OFF_ROUTE_M,
with OFF_ROUTE_M = 35. -/
def isOff (i : OffInput) : Bool :=
  match i.dLine with
  | some d => decide (35 < d)
  | none => false

/-- On-route predicate (NavLive.tsx line 645): dLine != null && dLine < ON_ROUTE_M,
with ON_ROUTE_M = 18. -/
def isOnRoute (i : OffInput) : Bool :=
  match i.dLine with
  | some d => decide (d < 18)
  | none => false

/-- Strike-counter update of one non-gated tick (NavLive.tsx lines 643-645):
increment on an off tick, reset to zero on an on-route tick, keep otherwise. -/
def strikeUpdate (strike : ℕ) (i : OffInput) : ℕ :=
  if isOff i then strike + 1
  else if isOnRoute i then 0
  else strike

/-- Embedding of the body of the reroute effect (NavLive.tsx lines 635-656).
Returns the new state and whether a reroute request was issued on this tick.
COOLDOWN_MS = 12000. -/
def offTick (s : OffState) (i : OffInput) : OffState × Bool :=
  if accGated i then (s, false)
  else if speedGated i then (s, false)
  else if i.now - s.lastRerouteAt < 12000 then
    ({ s with strike := strikeUpdate s.strike i }, false)
  else if 3 ≤ strikeUpdate s.strike i then
    ({ strike := 0, lastRerouteAt := i.now }, true)
  else ({ s with strike := strikeUpdate s.strike i }, false)

/-- Replay of the reroute effect over a sequence of ticks, collecting the
Date.now() timestamps of the reroute requests it issues, in order. -/
def offRun (s : OffState) : List OffInput → OffState × List ℤ
  | [] => (s, [])
  | i :: l =>
    let p := offTick s i
    let q := offRun p.1 l
    (q.1, (if p.2 then [i.now] else []) ++ q.2)

/-- Number of off ticks since the last on-route tick in a tick sequence,
starting from a counter value c, with gated ticks skipped; the reference
value the strike counter is compared against. -/
def offSinceOn (c : ℕ) : List OffInput → ℕ
  | [] => c
  | i :: l =>
    offSinceOn (if accGated i || speedGated i then c else strikeUpdate c i) l

/-- Initial detector state at run start (NavLive.tsx lines 411-412). -/
def initialOffState : OffState := { strike := 0, lastRerouteAt := 0 }

/-! ### Lemmas about one off-route tick -/

/-- Characterization of a gated tick: it leaves the detector state unchanged
and issues no reroute. -/
theorem offTick_gated (s : OffState) (i : OffInput)
    (h : accGated i = true ∨ speedGated i = true) : offTick s i = (s, false) := by
  unfold offTick
  rcases h with h | h
  · simp [h]
  · simp [h]

/-- A tick whose polyline distance is below the on-route threshold resets
the strike counter to zero (when not gated). -/
theorem offTick_on (s : OffState) (i : OffInput)
    (ha : accGated i = false) (hv : speedGated i = false)
    (hON : isOnRoute i = true) : (offTick s i).1.strike = 0 := by
  have hOFF : isOff i = false := by
    unfold isOnRoute at hON
    unfold isOff
    cases hd : i.dLine with
    | none => rfl
    | some d =>
      rw [hd] at hON
      simp only [decide_eq_true_eq] at hON
      simp only [decide_eq_false_iff_not]
      linarith
  have hupd : strikeUpdate s.strike i = 0 := by
    unfold strikeUpdate
    simp [hOFF, hON]
  unfold offTick
  simp only [ha, hv, hupd, Bool.false_eq_true, if_false]
  split
  · rfl
  · split
    · rfl
    · rfl

/-- A tick that is not off (including gated ticks and dead-band ticks)
never increases the strike counter. -/
theorem offTick_no_increment (s : OffState) (i : OffInput)
    (hOFF : isOff i = false) : (offTick s i).1.strike ≤ s.strike := by
  have hupd : strikeUpdate s.strike i ≤ s.strike := by
    unfold strikeUpdate
    simp only [hOFF, Bool.false_eq_true, if_false]
    split
    · exact Nat.zero_le _
    · exact le_refl _
  unfold offTick
  split_ifs <;> simp_all

/-- An off tick (not gated) increments the strike counter by one, unless
the tick also issues a reroute, in which case the counter is reset. -/
theorem offTick_off (s : OffState) (i : OffInput)
    (ha : accGated i = false) (hv : speedGated i = false)
    (hOFF : isOff i = true) :
    ((offTick s i).1.strike = s.strike + 1 ∧ (offTick s i).2 = false) ∨
    ((offTick s i).2 = true ∧ (offTick s i).1.strike = 0) := by
  have hupd : strikeUpdate s.strike i = s.strike + 1 := by
    unfold strikeUpdate
    simp [hOFF]
  unfold offTick
  simp only [ha, hv, hupd, Bool.false_eq_true, if_false]
  split
  · exact Or.inl ⟨rfl, rfl⟩
  · split
    · exact Or.inr ⟨rfl, rfl⟩
    · exact Or.inl ⟨rfl, rfl⟩

/-- One tick changes the strike counter by at most the offSinceOn update. -/
theorem offTick_strike_le (s : OffState) (i : OffInput) :
    (offTick s i).1.strike ≤
      (if accGated i || speedGated i then s.strike else strikeUpdate s.strike i) := by
  by_cases ha : accGated i = true
  · rw [offTick_gated s i (Or.inl ha)]
    simp [ha]
  · by_cases hv : speedGated i = true
    · rw [offTick_gated s i (Or.inr hv)]
      simp [hv]
    · simp only [Bool.not_eq_true] at ha hv
      simp only [ha, hv, Bool.or_self, Bool.false_eq_true, if_false]
      unfold offTick
      simp only [ha, hv, Bool.false_eq_true, if_false]
      split_ifs <;> simp

/-- offSinceOn is monotone in its starting counter. -/
theorem offSinceOn_mono : ∀ (l : List OffInput) {c c' : ℕ}, c ≤ c' →
    offSinceOn c l ≤ offSinceOn c' l
  | [], _, _, h => h
  | i :: l, c, c', h => by
    simp only [offSinceOn]
    apply offSinceOn_mono l
    split
    · exact h
    · unfold strikeUpdate
      split
      · exact Nat.succ_le_succ h
      · split
        · exact le_refl 0
        · exact h

/-- Strike-counter bound: after any replay the strike counter is at most
the number of off ticks since the last on-route tick. -/
theorem offRun_strike_le : ∀ (l : List OffInput) (s : OffState),
    (offRun s l).1.strike ≤ offSinceOn s.strike l
  | [], _ => le_refl _
  | i :: l, s => by
    simp only [offRun, offSinceOn]
    exact le_trans (offRun_strike_le l (offTick s i).1)
      (offSinceOn_mono l (offTick_strike_le s i))

/-- A tick that issues a reroute does so at least 12000 ms after the previous
reroute timestamp, records the new timestamp and resets the strike counter. -/
theorem offTick_reroute_true (s : OffState) (i : OffInput)
    (h : (offTick s i).2 = true) :
    s.lastRerouteAt + 12000 ≤ i.now ∧
      (offTick s i).1.strike = 0 ∧ (offTick s i).1.lastRerouteAt = i.now := by
  unfold offTick at h ⊢
  split_ifs at h ⊢ with h1 h2 h3 h4 <;> simp_all <;> omega

/-- A tick that issues no reroute leaves the reroute timestamp unchanged. -/
theorem offTick_reroute_false (s : OffState) (i : OffInput)
    (h : (offTick s i).2 = false) :
    (offTick s i).1.lastRerouteAt = s.lastRerouteAt := by
  unfold offTick at h ⊢
  split_ifs at h ⊢ <;> simp_all

/-- A reroute is issued only on a non-gated tick on which the updated strike
counter has reached 3. -/
theorem offTick_reroute_conditions (s : OffState) (i : OffInput)
    (h : (offTick s i).2 = true) :
    accGated i = false ∧ speedGated i = false ∧ 3 ≤ strikeUpdate s.strike i := by
  unfold offTick at h
  split_ifs at h with h1 h2 h3 h4
  exact ⟨by simpa using h1, by simpa using h2, h4⟩

/-- Separation of reroute timestamps: along any replay, all ordered pairs of
reroute timestamps are at least 12000 ms apart, and every reroute timestamp is
at least 12000 ms after the initial reroute timestamp. -/
theorem offRun_sep : ∀ (l : List OffInput) (s : OffState),
    List.Pairwise (fun a b : ℤ => a + 12000 ≤ b) (offRun s l).2 ∧
    ∀ t ∈ (offRun s l).2, s.lastRerouteAt + 12000 ≤ t
  | [], s => ⟨List.Pairwise.nil, by simp [offRun]⟩
  | i :: l, s => by
    have ih := offRun_sep l (offTick s i).1
    simp only [offRun]
    by_cases hr : (offTick s i).2 = true
    · obtain ⟨hle, hstrike, hlast⟩ := offTick_reroute_true s i hr
      simp only [hr, if_true, List.singleton_append]
      constructor
      · refine List.Pairwise.cons (fun t ht => ?_) ih.1
        have h2 := ih.2 t ht
        rw [hlast] at h2
        omega
      · intro t ht
        rcases List.mem_cons.mp ht with rfl | ht
        · exact hle
        · have h2 := ih.2 t ht
          rw [hlast] at h2
          omega
    · have hf : (offTick s i).2 = false := by
        simpa using hr
      have hlast := offTick_reroute_false s i hf
      simp only [hf, Bool.false_eq_true, if_false, List.nil_append]
      refine ⟨ih.1, fun t ht => ?_⟩
      have h2 := ih.2 t ht
      rw [hlast] at h2
      exact h2

/-! ### Claim C4 -/

/-- C4: the off-route strike counter is unchanged by ticks gated out by
accuracy worse than 35 m or speed below 1.2 m/s; on a non-gated tick it is
reset to zero when the distance to the governing polyline is below the 18 m
on-route threshold, and it is incremented only on ticks whose distance
exceeds the 35 m off-route threshold (an off tick increments it by exactly
one unless the tick also issues a reroute, which resets it); consequently the
counter can reach the reroute-trigger count 3 only after at least 3
qualifying off ticks with no intervening on-route tick, as expressed by the
offSinceOn bound. -/
theorem claim_C4_strike_counter :
    (∀ s i, accGated i = true ∨ speedGated i = true → offTick s i = (s, false)) ∧
    (∀ s i, accGated i = false → speedGated i = false → isOnRoute i = true →
      (offTick s i).1.strike = 0) ∧
    (∀ s i, isOff i = false → (offTick s i).1.strike ≤ s.strike) ∧
    (∀ s i, accGated i = false → speedGated i = false → isOff i = true →
      ((offTick s i).1.strike = s.strike + 1 ∧ (offTick s i).2 = false) ∨
      ((offTick s i).2 = true ∧ (offTick s i).1.strike = 0)) ∧
    (∀ s l, (offRun s l).1.strike ≤ offSinceOn s.strike l) :=
  ⟨offTick_gated, offTick_on, offTick_no_increment, offTick_off,
   fun s l => offRun_strike_le l s⟩

/-- Witness for C4: a close tick (5 m) resets a counter of 2 to zero; a gated
tick (accuracy 40 m) with the same distance leaves the counter untouched; an
off tick (50 m) increments a zero counter. -/
theorem claim_C4_strike_counter_witness :
    (offTick ⟨2, 0⟩ ⟨some 5, some 10, some 3, 1000⟩).1.strike = 0 ∧
    offTick ⟨2, 0⟩ ⟨some 5, some 40, some 3, 1000⟩ = (⟨2, 0⟩, false) ∧
    (((offTick ⟨0, 0⟩ ⟨some 50, some 10, some 3, 1000⟩).1.strike = 0 + 1 ∧
        (offTick ⟨0, 0⟩ ⟨some 50, some 10, some 3, 1000⟩).2 = false) ∨
      ((offTick ⟨0, 0⟩ ⟨some 50, some 10, some 3, 1000⟩).2 = true ∧
        (offTick ⟨0, 0⟩ ⟨some 50, some 10, some 3, 1000⟩).1.strike = 0)) :=
  ⟨claim_C4_strike_counter.2.1 ⟨2, 0⟩ ⟨some 5, some 10, some 3, 1000⟩
      (by with_unfolding_all decide) (by with_unfolding_all decide)
      (by with_unfolding_all decide),
   claim_C4_strike_counter.1 ⟨2, 0⟩ ⟨some 5, some 40, some 3, 1000⟩
      (Or.inl (by with_unfolding_all decide)),
   claim_C4_strike_counter.2.2.2.1 ⟨0, 0⟩ ⟨some 50, some 10, some 3, 1000⟩
      (by with_unfolding_all decide) (by with_unfolding_all decide)
      (by with_unfolding_all decide)⟩

/-! ### Claim C5 -/

/-- C5: a reroute request is issued only when at least 12000 ms have elapsed
since the last reroute timestamp and the updated strike counter has reached 3;
issuing it records the new timestamp and resets the strike counter; hence in
any replay every two reroute timestamps are at least 12000 ms apart. -/
theorem claim_C5_reroute_cooldown :
    (∀ s i, (offTick s i).2 = true →
      s.lastRerouteAt + 12000 ≤ i.now ∧
        (offTick s i).1.strike = 0 ∧ (offTick s i).1.lastRerouteAt = i.now) ∧
    (∀ s i, (offTick s i).2 = true →
      accGated i = false ∧ speedGated i = false ∧ 3 ≤ strikeUpdate s.strike i) ∧
    (∀ s l, List.Pairwise (fun a b : ℤ => a + 12000 ≤ b) (offRun s l).2) :=
  ⟨offTick_reroute_true, offTick_reroute_conditions, fun s l => (offRun_sep l s).1⟩

/-- Witness for C5: from a counter of 2, an off tick at t = 12000 ms with the
cooldown elapsed issues a reroute, records t and resets the counter. -/
theorem claim_C5_reroute_cooldown_witness :
    (offTick (⟨2, 0⟩ : OffState) ⟨some 50, some 10, some 3, 12000⟩).2 = true ∧
    ((⟨2, 0⟩ : OffState).lastRerouteAt + 12000 ≤ (12000 : ℤ) ∧
      (offTick (⟨2, 0⟩ : OffState) ⟨some 50, some 10, some 3, 12000⟩).1.strike = 0 ∧
      (offTick (⟨2, 0⟩ : OffState) ⟨some 50, some 10, some 3, 12000⟩).1.lastRerouteAt
        = 12000) :=
  ⟨by with_unfolding_all decide,
   claim_C5_reroute_cooldown.1 ⟨2, 0⟩ ⟨some 50, some 10, some 3, 12000⟩
     (by with_unfolding_all decide)⟩

end NavModel

namespace NavModel

/-! ### Stop guidance state machine (NavLive.tsx lines 661-775)

One invocation of the stop/banner/announcement effect for one position
tick.  The effect only runs when the run is live (running and a smoothed
fix exists); a missing target (targetIdx beyond the stop list) returns
immediately.  Tuning constants (NavLive.tsx lines 377-393):
ARRIVE_STOP_M = 45, TURN_SPEAK_AT_M = 55, STEP_ADVANCE_M = 14,
DING_AT_M = 10. -/

/-- Banner UI state (stopBanner state, NavLive.tsx lines 361-366); the label
field is omitted (display-only text).  showFlag models the show field
(show is a reserved word in Lean). -/
structure Banner where
  showFlag : Bool
  meters : ℤ
  max : ℤ
deriving DecidableEq, Repr

/-- Per-run mutable state of the stop guidance effect: targetIdx and
finished (React state), the per-stop markers stopWarnRef, stopWarnMaxRef,
stopBannerLastMRef, stopDingRef, the per-maneuver marker spokenStepRef,
stepIdx, the banner state, and saidStartRef. -/
structure StopState where
  targetIdx : ℕ
  finished : Bool
  stopWarn : Option ℕ
  stopWarnMax : Option ℤ
  stopBannerLastM : Option ℤ
  stopDing : Option ℕ
  spokenStep : Option ℕ
  stepIdx : ℕ
  stopBanner : Banner
  saidStart : Bool
deriving DecidableEq, Repr

/-- Inputs read by one invocation of the stop guidance effect: the
haversine distance from the smoothed fix to the active stop (dStop),
speedRef.current, the distance from the fix to the next stop (dNext,
used in the arrival announcement; none when absent), and the distance
from the fix to the location of maneuver step j (dman j; none when the
step or its location is missing). -/
structure StopInput where
  dStop : ℚ
  speed : Option ℚ
  dNext : Option ℚ
  dman : ℕ → Option ℚ

/-- Observable guidance events of one tick: the spoken stop warning
(speak at NavLive.tsx line 702, carrying the stop index and the frozen
threshold), the proximity ding (line 710), the arrival announcement
(line 723, carrying the rounded distance to the next stop), the
completion announcement (line 740), and the maneuver announcement
trigger (line 766, carrying the step index and rounded distance; the
spoken phrase is normalizeInstruction of the step and is voiced only
when non-empty). -/
inductive Ev where
  | warn (stopIdx : ℕ) (w : ℤ)
  | ding (stopIdx : ℕ)
  | arrive (stopIdx : ℕ) (distNext : ℤ)
  | finish
  | maneuver (stepIdx : ℕ) (dist : ℤ)
deriving DecidableEq, Repr

/-- Threshold WARN_STOP_M used by one tick (NavLive.tsx lines 669-671):
the frozen stopWarnMaxRef value if set, else the dynamic warnStopMeters
value (which the tick then freezes). -/
def tickWarnMax (s : StopState) (i : StopInput) : ℤ :=
  s.stopWarnMax.getD (warnStopMeters i.speed)

/-- Monotone banner distance of one in-zone tick (NavLive.tsx lines
681-683): the minimum of the previously shown value and the rounded raw
distance, rounded to the nearest 5 m. -/
def bannerShown (s : StopState) (rawMeters : ℤ) : ℤ :=
  round5 (match s.stopBannerLastM with
          | none => rawMeters
          | some p => min p rawMeters)

/-- Banner, warning and ding phase of one tick (NavLive.tsx lines
665-712): freezes the threshold, updates the banner (hidden outside the
warning zone, monotone distance inside it), and fires the one-shot stop
warning and proximity ding guarded by their per-stop markers. -/
def preArrival (s : StopState) (i : StopInput) : StopState × List Ev :=
  let k := s.targetIdx
  let rawMeters := jsRound i.dStop
  let W := tickWarnMax s i
  let shown := bannerShown s rawMeters
  let s1 : StopState :=
    { s with
      stopWarnMax := some W,
      stopBannerLastM :=
        if s.finished = false ∧ rawMeters ≤ W ∧ 45 < rawMeters then some shown
        else none,
      stopBanner :=
        if s.finished = false ∧ rawMeters ≤ W ∧ 45 < rawMeters then ⟨true, shown, W⟩
        else if s.stopBanner.showFlag then ⟨false, 0, W⟩
        else s.stopBanner,
      stopWarn :=
        if s.finished = false ∧ rawMeters ≤ W ∧ 45 < rawMeters ∧ s.stopWarn ≠ some k
        then some k else s.stopWarn,
      stopDing :=
        if s.finished = false ∧ rawMeters ≤ 10 ∧ 1 < rawMeters ∧ s.stopDing ≠ some k
        then some k else s.stopDing }
  let evs : List Ev :=
    (if s.finished = false ∧ rawMeters ≤ W ∧ 45 < rawMeters ∧ s.stopWarn ≠ some k
     then [Ev.warn k W] else []) ++
    (if s.finished = false ∧ rawMeters ≤ 10 ∧ 1 < rawMeters ∧ s.stopDing ≠ some k
     then [Ev.ding k] else [])
  (s1, evs)

/-- Embedding of the body of the stop guidance effect (NavLive.tsx lines
661-775) for a run over numPoints stops and numSteps maneuver steps:
the banner/warning/ding phase, then arrival handling (advance or finish,
with the per-stop marker resets of lines 726-734 resp. 743-745), then the
maneuver announcement and maneuver advance of lines 751-774. -/
def stopTick (numPoints numSteps : ℕ) (s : StopState) (i : StopInput) :
    StopState × List Ev :=
  if numPoints ≤ s.targetIdx then (s, [])
  else
    let k := s.targetIdx
    let W := tickWarnMax s i
    let p := preArrival s i
    if s.finished = false ∧ i.dStop ≤ 45 then
      if k + 1 < numPoints then
        let distNext : ℤ := (match i.dNext with | some d => jsRound d | none => 0)
        ({ p.1 with
            stopBanner := ⟨false, 0, W⟩,
            targetIdx := k + 1,
            stopWarn := none,
            stopWarnMax := none,
            stopBannerLastM := none,
            stopDing := none,
            spokenStep := none,
            saidStart := false },
         p.2 ++ [Ev.arrive k distNext])
      else
        ({ p.1 with
            stopBanner := ⟨false, 0, W⟩,
            finished := true,
            stopWarnMax := none,
            stopBannerLastM := none,
            stopDing := none },
         p.2 ++ [Ev.finish])
    else if s.finished then p
    else
      match i.dman s.stepIdx with
      | none => p
      | some dMan =>
        ({ p.1 with
            spokenStep :=
              if dMan ≤ 55 ∧ s.spokenStep ≠ some s.stepIdx then some s.stepIdx
              else s.spokenStep,
            stepIdx :=
              if dMan ≤ 14 ∧ s.stepIdx < numSteps - 1 then s.stepIdx + 1
              else s.stepIdx },
         p.2 ++
           (if dMan ≤ 55 ∧ s.spokenStep ≠ some s.stepIdx
            then [Ev.maneuver s.stepIdx (jsRound dMan)] else []))

/-- Replay of the stop guidance effect over a sequence of ticks,
concatenating the emitted events in order. -/
def stopRun (numPoints numSteps : ℕ) (s : StopState) :
    List StopInput → StopState × List Ev
  | [] => (s, [])
  | i :: l =>
    let p := stopTick numPoints numSteps s i
    let q := stopRun numPoints numSteps p.1 l
    (q.1, p.2 ++ q.2)

/-- State at run start, after the resets of loadCircuit
(NavLive.tsx lines 403-422). -/
def initialStopState : StopState :=
  { targetIdx := 0, finished := false, stopWarn := none, stopWarnMax := none,
    stopBannerLastM := none, stopDing := none, spokenStep := none, stepIdx := 0,
    stopBanner := { showFlag := false, meters := 0, max := 150 },
    saidStart := false }

end NavModel

namespace NavModel

/-! ### Characterization lemmas for one stop-guidance tick -/

/-- Event filter: spoken stop warning for stop index k. -/
def isWarnFor (k : ℕ) : Ev → Bool
  | Ev.warn j _ => j == k
  | _ => false

/-- Event filter: proximity ding for stop index k. -/
def isDingFor (k : ℕ) : Ev → Bool
  | Ev.ding j => j == k
  | _ => false

/-- Number of events matching a filter. -/
def countEv (p : Ev → Bool) (evs : List Ev) : ℕ := (evs.filter p).length

theorem countEv_append (p : Ev → Bool) (a b : List Ev) :
    countEv p (a ++ b) = countEv p a + countEv p b := by
  simp [countEv, List.filter_append]

/-- Unfolding of the events of the banner/warning/ding phase. -/
theorem preArrival_evs (s : StopState) (i : StopInput) :
    (preArrival s i).2 =
      (if s.finished = false ∧ jsRound i.dStop ≤ tickWarnMax s i ∧
          45 < jsRound i.dStop ∧ s.stopWarn ≠ some s.targetIdx
       then [Ev.warn s.targetIdx (tickWarnMax s i)] else []) ++
      (if s.finished = false ∧ jsRound i.dStop ≤ 10 ∧
          1 < jsRound i.dStop ∧ s.stopDing ≠ some s.targetIdx
       then [Ev.ding s.targetIdx] else []) := rfl

theorem preArrival_targetIdx (s : StopState) (i : StopInput) :
    (preArrival s i).1.targetIdx = s.targetIdx := rfl

theorem preArrival_finished (s : StopState) (i : StopInput) :
    (preArrival s i).1.finished = s.finished := rfl

theorem preArrival_stepIdx (s : StopState) (i : StopInput) :
    (preArrival s i).1.stepIdx = s.stepIdx := rfl

theorem preArrival_spokenStep (s : StopState) (i : StopInput) :
    (preArrival s i).1.spokenStep = s.spokenStep := rfl

theorem preArrival_stopWarnMax (s : StopState) (i : StopInput) :
    (preArrival s i).1.stopWarnMax = some (tickWarnMax s i) := rfl

theorem preArrival_stopWarn (s : StopState) (i : StopInput) :
    (preArrival s i).1.stopWarn =
      (if s.finished = false ∧ jsRound i.dStop ≤ tickWarnMax s i ∧
          45 < jsRound i.dStop ∧ s.stopWarn ≠ some s.targetIdx
       then some s.targetIdx else s.stopWarn) := rfl

theorem preArrival_stopDing (s : StopState) (i : StopInput) :
    (preArrival s i).1.stopDing =
      (if s.finished = false ∧ jsRound i.dStop ≤ 10 ∧
          1 < jsRound i.dStop ∧ s.stopDing ≠ some s.targetIdx
       then some s.targetIdx else s.stopDing) := rfl

theorem preArrival_stopBannerLastM (s : StopState) (i : StopInput) :
    (preArrival s i).1.stopBannerLastM =
      (if s.finished = false ∧ jsRound i.dStop ≤ tickWarnMax s i ∧ 45 < jsRound i.dStop
       then some (bannerShown s (jsRound i.dStop)) else none) := rfl

theorem preArrival_stopBanner (s : StopState) (i : StopInput) :
    (preArrival s i).1.stopBanner =
      (if s.finished = false ∧ jsRound i.dStop ≤ tickWarnMax s i ∧ 45 < jsRound i.dStop
       then ⟨true, bannerShown s (jsRound i.dStop), tickWarnMax s i⟩
       else if s.stopBanner.showFlag then ⟨false, 0, tickWarnMax s i⟩
       else s.stopBanner) := rfl

/-- Guard branch: no target (index beyond the stop list) leaves the state
unchanged and emits nothing. -/
theorem stopTick_guard (numPoints numSteps : ℕ) (s : StopState) (i : StopInput)
    (h : numPoints ≤ s.targetIdx) : stopTick numPoints numSteps s i = (s, []) := by
  simp [stopTick, h]

/-- Arrival branch with a next stop: advance and reset the per-stop markers. -/
theorem stopTick_advance (numPoints numSteps : ℕ) (s : StopState) (i : StopInput)
    (h1 : s.targetIdx < numPoints) (h2 : s.finished = false) (h3 : i.dStop ≤ 45)
    (h4 : s.targetIdx + 1 < numPoints) :
    stopTick numPoints numSteps s i =
      ({ (preArrival s i).1 with
          stopBanner := ⟨false, 0, tickWarnMax s i⟩,
          targetIdx := s.targetIdx + 1,
          stopWarn := none,
          stopWarnMax := none,
          stopBannerLastM := none,
          stopDing := none,
          spokenStep := none,
          saidStart := false },
       (preArrival s i).2 ++
         [Ev.arrive s.targetIdx
           (match i.dNext with | some d => jsRound d | none => 0)]) := by
  simp [stopTick, not_le.mpr h1, h2, h3, h4]

/-- Arrival branch at the last stop: set the finished flag. -/
theorem stopTick_finish (numPoints numSteps : ℕ) (s : StopState) (i : StopInput)
    (h1 : s.targetIdx < numPoints) (h2 : s.finished = false) (h3 : i.dStop ≤ 45)
    (h4 : ¬ s.targetIdx + 1 < numPoints) :
    stopTick numPoints numSteps s i =
      ({ (preArrival s i).1 with
          stopBanner := ⟨false, 0, tickWarnMax s i⟩,
          finished := true,
          stopWarnMax := none,
          stopBannerLastM := none,
          stopDing := none },
       (preArrival s i).2 ++ [Ev.finish]) := by
  simp [stopTick, not_le.mpr h1, h2, h3, h4]

/-- Finished branch: a tick after the run finished is the banner phase only. -/
theorem stopTick_finished (numPoints numSteps : ℕ) (s : StopState) (i : StopInput)
    (h1 : s.targetIdx < numPoints) (hf : s.finished = true) :
    stopTick numPoints numSteps s i = preArrival s i := by
  simp [stopTick, not_le.mpr h1, hf]

/-- Non-arrival branch of a live tick: the banner phase followed by the
maneuver logic. -/
theorem stopTick_noarrival (numPoints numSteps : ℕ) (s : StopState) (i : StopInput)
    (h1 : s.targetIdx < numPoints) (h2 : s.finished = false) (h3 : ¬ i.dStop ≤ 45) :
    stopTick numPoints numSteps s i =
      (match i.dman s.stepIdx with
       | none => preArrival s i
       | some dMan =>
         ({ (preArrival s i).1 with
             spokenStep :=
               if dMan ≤ 55 ∧ s.spokenStep ≠ some s.stepIdx then some s.stepIdx
               else s.spokenStep,
             stepIdx :=
               if dMan ≤ 14 ∧ s.stepIdx < numSteps - 1 then s.stepIdx + 1
               else s.stepIdx },
          (preArrival s i).2 ++
            (if dMan ≤ 55 ∧ s.spokenStep ≠ some s.stepIdx
             then [Ev.maneuver s.stepIdx (jsRound dMan)] else []))) := by
  simp [stopTick, not_le.mpr h1, h2, h3]

end NavModel

namespace NavModel

@[simp] theorem isWarnFor_warn (k j : ℕ) (w : ℤ) :
    isWarnFor k (Ev.warn j w) = (j == k) := rfl

@[simp] theorem isWarnFor_ding (k j : ℕ) : isWarnFor k (Ev.ding j) = false := rfl

@[simp] theorem isWarnFor_arrive (k j : ℕ) (d : ℤ) :
    isWarnFor k (Ev.arrive j d) = false := rfl

@[simp] theorem isWarnFor_finish (k : ℕ) : isWarnFor k Ev.finish = false := rfl

@[simp] theorem isWarnFor_maneuver (k j : ℕ) (d : ℤ) :
    isWarnFor k (Ev.maneuver j d) = false := rfl

@[simp] theorem isDingFor_warn (k j : ℕ) (w : ℤ) :
    isDingFor k (Ev.warn j w) = false := rfl

@[simp] theorem isDingFor_ding (k j : ℕ) : isDingFor k (Ev.ding j) = (j == k) := rfl

@[simp] theorem isDingFor_arrive (k j : ℕ) (d : ℤ) :
    isDingFor k (Ev.arrive j d) = false := rfl

@[simp] theorem isDingFor_finish (k : ℕ) : isDingFor k Ev.finish = false := rfl

@[simp] theorem isDingFor_maneuver (k j : ℕ) (d : ℤ) :
    isDingFor k (Ev.maneuver j d) = false := rfl

@[simp] theorem countEv_nil (p : Ev → Bool) : countEv p [] = 0 := rfl

@[simp] theorem countEv_singleton (p : Ev → Bool) (e : Ev) :
    countEv p [e] = if p e then 1 else 0 := by
  simp [countEv, List.filter]
  split <;> simp_all

/-- Warn-event count of the banner/warning/ding phase. -/
theorem preArrival_warn_count (s : StopState) (i : StopInput) (k : ℕ) :
    countEv (isWarnFor k) (preArrival s i).2 =
      if s.finished = false ∧ jsRound i.dStop ≤ tickWarnMax s i ∧
          45 < jsRound i.dStop ∧ s.stopWarn ≠ some s.targetIdx ∧ s.targetIdx = k
      then 1 else 0 := by
  rw [preArrival_evs, countEv_append]
  rw [apply_ite (countEv (isWarnFor k)), apply_ite (countEv (isWarnFor k))]
  by_cases hw : s.finished = false ∧ jsRound i.dStop ≤ tickWarnMax s i ∧
      45 < jsRound i.dStop ∧ s.stopWarn ≠ some s.targetIdx
  · by_cases hk : s.targetIdx = k
    · subst hk
      simp [hw]
    · have : ¬ (s.finished = false ∧ jsRound i.dStop ≤ tickWarnMax s i ∧
          45 < jsRound i.dStop ∧ s.stopWarn ≠ some s.targetIdx ∧ s.targetIdx = k) := by
        intro hc
        exact hk hc.2.2.2.2
      simp [hw, this, hk]
  · have : ¬ (s.finished = false ∧ jsRound i.dStop ≤ tickWarnMax s i ∧
        45 < jsRound i.dStop ∧ s.stopWarn ≠ some s.targetIdx ∧ s.targetIdx = k) := by
      intro hc
      exact hw ⟨hc.1, hc.2.1, hc.2.2.1, hc.2.2.2.1⟩
    simp [hw, this]

/-- Ding-event count of the banner/warning/ding phase. -/
theorem preArrival_ding_count (s : StopState) (i : StopInput) (k : ℕ) :
    countEv (isDingFor k) (preArrival s i).2 =
      if s.finished = false ∧ jsRound i.dStop ≤ 10 ∧
          1 < jsRound i.dStop ∧ s.stopDing ≠ some s.targetIdx ∧ s.targetIdx = k
      then 1 else 0 := by
  rw [preArrival_evs, countEv_append]
  rw [apply_ite (countEv (isDingFor k)), apply_ite (countEv (isDingFor k))]
  by_cases hd : s.finished = false ∧ jsRound i.dStop ≤ 10 ∧
      1 < jsRound i.dStop ∧ s.stopDing ≠ some s.targetIdx
  · by_cases hk : s.targetIdx = k
    · subst hk
      simp [hd]
    · have : ¬ (s.finished = false ∧ jsRound i.dStop ≤ 10 ∧
          1 < jsRound i.dStop ∧ s.stopDing ≠ some s.targetIdx ∧ s.targetIdx = k) := by
        intro hc
        exact hk hc.2.2.2.2
      simp [hd, this, hk]
  · have : ¬ (s.finished = false ∧ jsRound i.dStop ≤ 10 ∧
        1 < jsRound i.dStop ∧ s.stopDing ≠ some s.targetIdx ∧ s.targetIdx = k) := by
      intro hc
      exact hd ⟨hc.1, hc.2.1, hc.2.2.1, hc.2.2.2.1⟩
    simp [hd, this]

end NavModel

namespace NavModel

/-- Warning possibility: stop index k has not yet been warned in the current
run segment (the run has not yet passed k, and if k is active its warn marker
is unset). -/
def canWarn (k : ℕ) (s : StopState) : Prop :=
  s.targetIdx < k ∨ (s.targetIdx = k ∧ s.stopWarn ≠ some k)

/-- Ding possibility: stop index k has not yet been dinged in the current run
segment. -/
def canDing (k : ℕ) (s : StopState) : Prop :=
  s.targetIdx < k ∨ (s.targetIdx = k ∧ s.finished = false ∧ s.stopDing ≠ some k)

theorem preArrival_stopWarn_some (s : StopState) (i : StopInput)
    (h : s.stopWarn = some s.targetIdx) :
    (preArrival s i).1.stopWarn = some s.targetIdx := by
  rw [preArrival_stopWarn]
  split_ifs
  · rfl
  · exact h

theorem preArrival_stopDing_some (s : StopState) (i : StopInput)
    (h : s.stopDing = some s.targetIdx) :
    (preArrival s i).1.stopDing = some s.targetIdx := by
  rw [preArrival_stopDing]
  split_ifs
  · rfl
  · exact h

theorem preArrival_warn_fire (s : StopState) (i : StopInput) (k : ℕ)
    (h : 1 ≤ countEv (isWarnFor k) (preArrival s i).2) :
    s.targetIdx = k ∧ (preArrival s i).1.stopWarn = some k := by
  rw [preArrival_warn_count] at h
  split_ifs at h with hc
  · obtain ⟨h1, h2, h3, h4, h5⟩ := hc
    refine ⟨h5, ?_⟩
    rw [preArrival_stopWarn]
    rw [← h5]
    simp [h1, h2, h3, h4]
  · omega

theorem preArrival_ding_fire (s : StopState) (i : StopInput) (k : ℕ)
    (h : 1 ≤ countEv (isDingFor k) (preArrival s i).2) :
    s.targetIdx = k ∧ (preArrival s i).1.stopDing = some k := by
  rw [preArrival_ding_count] at h
  split_ifs at h with hc
  · obtain ⟨h1, h2, h3, h4, h5⟩ := hc
    refine ⟨h5, ?_⟩
    rw [preArrival_stopDing]
    rw [← h5]
    simp [h1, h2, h3, h4]
  · omega

theorem preArrival_warn_count_le (s : StopState) (i : StopInput) (k : ℕ) :
    countEv (isWarnFor k) (preArrival s i).2 ≤ 1 := by
  rw [preArrival_warn_count]
  split_ifs <;> omega

theorem preArrival_ding_count_le (s : StopState) (i : StopInput) (k : ℕ) :
    countEv (isDingFor k) (preArrival s i).2 ≤ 1 := by
  rw [preArrival_ding_count]
  split_ifs <;> omega

theorem preArrival_warn_count_zero (s : StopState) (i : StopInput) (k : ℕ)
    (h : ¬ canWarn k s) : countEv (isWarnFor k) (preArrival s i).2 = 0 := by
  rw [preArrival_warn_count]
  split_ifs with hc
  · exact absurd (Or.inr ⟨hc.2.2.2.2, hc.2.2.2.2 ▸ hc.2.2.2.1⟩) h
  · rfl

theorem preArrival_ding_count_zero (s : StopState) (i : StopInput) (k : ℕ)
    (h : ¬ canDing k s) : countEv (isDingFor k) (preArrival s i).2 = 0 := by
  rw [preArrival_ding_count]
  split_ifs with hc
  · exact absurd (Or.inr ⟨hc.2.2.2.2, hc.1, hc.2.2.2.2 ▸ hc.2.2.2.1⟩) h
  · rfl

end NavModel


namespace NavModel

theorem not_canWarn_le (k : ℕ) (s : StopState) (h : ¬ canWarn k s) :
    k ≤ s.targetIdx := by
  simp only [canWarn, not_or] at h
  omega

theorem not_canDing_le (k : ℕ) (s : StopState) (h : ¬ canDing k s) :
    k ≤ s.targetIdx := by
  simp only [canDing, not_or] at h
  omega

/-- After an index advance past k, neither marker predicate can hold. -/
theorem not_reach_succ (t k : ℕ) (P : Prop) (hk : k ≤ t) :
    ¬ (t + 1 < k ∨ (t + 1 = k ∧ P)) := by
  rintro (h | ⟨h, _⟩) <;> omega

theorem canWarn_pre_preserve (s : StopState) (i : StopInput) (k : ℕ)
    (h : ¬ canWarn k s) :
    ¬ (s.targetIdx < k ∨ (s.targetIdx = k ∧ (preArrival s i).1.stopWarn ≠ some k)) := by
  simp only [canWarn, not_or] at h
  obtain ⟨h1, h2⟩ := h
  rintro (hc | ⟨hc, hne⟩)
  · exact h1 hc
  · apply hne
    have hw : s.stopWarn = some k := by
      by_contra hww
      exact h2 ⟨hc, hww⟩
    have hps := preArrival_stopWarn_some s i (by rw [hc]; exact hw)
    rw [hps, hc]

theorem canWarn_pre_fire (s : StopState) (i : StopInput) (k : ℕ)
    (h : 1 ≤ countEv (isWarnFor k) (preArrival s i).2) :
    ¬ (s.targetIdx < k ∨ (s.targetIdx = k ∧ (preArrival s i).1.stopWarn ≠ some k)) := by
  obtain ⟨hk, hmark⟩ := preArrival_warn_fire s i k h
  rintro (hc | ⟨hc, hne⟩)
  · omega
  · exact hne hmark

theorem canDing_pre_preserve (s : StopState) (i : StopInput) (k : ℕ)
    (h : ¬ canDing k s) :
    ¬ (s.targetIdx < k ∨
       (s.targetIdx = k ∧ s.finished = false ∧ (preArrival s i).1.stopDing ≠ some k)) := by
  simp only [canDing, not_or] at h
  obtain ⟨h1, h2⟩ := h
  rintro (hc | ⟨hc, hfin, hne⟩)
  · exact h1 hc
  · apply hne
    have hw : s.stopDing = some k := by
      by_contra hww
      exact h2 ⟨hc, hfin, hww⟩
    have hps := preArrival_stopDing_some s i (by rw [hc]; exact hw)
    rw [hps, hc]

theorem canDing_pre_fire (s : StopState) (i : StopInput) (k : ℕ)
    (h : 1 ≤ countEv (isDingFor k) (preArrival s i).2) :
    ¬ (s.targetIdx < k ∨
       (s.targetIdx = k ∧ s.finished = false ∧ (preArrival s i).1.stopDing ≠ some k)) := by
  obtain ⟨hk, hmark⟩ := preArrival_ding_fire s i k h
  rintro (hc | ⟨hc, _, hne⟩)
  · omega
  · exact hne hmark

end NavModel

namespace NavModel

/-- Warn events of one tick: at most one, none once k can no longer be
warned, and the possibility of warning k is consumed by the tick that emits
the warning and is never restored. -/
theorem stopTick_warn_step (numPoints numSteps : ℕ) (s : StopState)
    (i : StopInput) (k : ℕ) :
    countEv (isWarnFor k) (stopTick numPoints numSteps s i).2 ≤ 1 ∧
    (¬ canWarn k s → countEv (isWarnFor k) (stopTick numPoints numSteps s i).2 = 0) ∧
    (¬ canWarn k s → ¬ canWarn k (stopTick numPoints numSteps s i).1) ∧
    (1 ≤ countEv (isWarnFor k) (stopTick numPoints numSteps s i).2 →
      ¬ canWarn k (stopTick numPoints numSteps s i).1) := by
  by_cases hg : numPoints ≤ s.targetIdx
  · rw [stopTick_guard numPoints numSteps s i hg]
    exact ⟨by simp [countEv], fun _ => by simp [countEv], fun h => h, by simp [countEv]⟩
  · have hg' : s.targetIdx < numPoints := not_le.mp hg
    rcases (Bool.eq_false_or_eq_true s.finished).symm with hf | hf
    · by_cases h45 : i.dStop ≤ 45
      · by_cases hnext : s.targetIdx + 1 < numPoints
        · rw [stopTick_advance numPoints numSteps s i hg' hf h45 hnext]
          have hcnt : countEv (isWarnFor k)
              ((preArrival s i).2 ++ [Ev.arrive s.targetIdx
                (match i.dNext with | some d => jsRound d | none => 0)]) =
              countEv (isWarnFor k) (preArrival s i).2 := by
            rw [countEv_append]
            simp
          refine ⟨?_, ?_, ?_, ?_⟩
          · rw [hcnt]
            exact preArrival_warn_count_le s i k
          · intro h
            rw [hcnt]
            exact preArrival_warn_count_zero s i k h
          · intro h
            exact not_reach_succ s.targetIdx k _ (not_canWarn_le k s h)
          · intro h
            rw [hcnt] at h
            obtain ⟨hk, _⟩ := preArrival_warn_fire s i k h
            exact not_reach_succ s.targetIdx k _ (le_of_eq hk.symm)
        · rw [stopTick_finish numPoints numSteps s i hg' hf h45 hnext]
          have hcnt : countEv (isWarnFor k) ((preArrival s i).2 ++ [Ev.finish]) =
              countEv (isWarnFor k) (preArrival s i).2 := by
            rw [countEv_append]
            simp
          refine ⟨?_, ?_, ?_, ?_⟩
          · rw [hcnt]
            exact preArrival_warn_count_le s i k
          · intro h
            rw [hcnt]
            exact preArrival_warn_count_zero s i k h
          · intro h
            exact canWarn_pre_preserve s i k h
          · intro h
            rw [hcnt] at h
            exact canWarn_pre_fire s i k h
      · rw [stopTick_noarrival numPoints numSteps s i hg' hf h45]
        rcases hdm : i.dman s.stepIdx with _ | dMan
        · refine ⟨preArrival_warn_count_le s i k, preArrival_warn_count_zero s i k,
            fun h => canWarn_pre_preserve s i k h, fun h => canWarn_pre_fire s i k h⟩
        · have hcnt : countEv (isWarnFor k)
              ((preArrival s i).2 ++
                (if dMan ≤ 55 ∧ s.spokenStep ≠ some s.stepIdx
                 then [Ev.maneuver s.stepIdx (jsRound dMan)] else [])) =
              countEv (isWarnFor k) (preArrival s i).2 := by
            rw [countEv_append]
            split_ifs <;> simp
          refine ⟨?_, ?_, ?_, ?_⟩
          · rw [hcnt]
            exact preArrival_warn_count_le s i k
          · intro h
            rw [hcnt]
            exact preArrival_warn_count_zero s i k h
          · intro h
            exact canWarn_pre_preserve s i k h
          · intro h
            rw [hcnt] at h
            exact canWarn_pre_fire s i k h
    · rw [stopTick_finished numPoints numSteps s i hg' hf]
      have hzero : countEv (isWarnFor k) (preArrival s i).2 = 0 := by
        rw [preArrival_warn_count]
        split_ifs with hc
        · rw [hf] at hc
          exact absurd hc.1 (by simp)
        · rfl
      refine ⟨by omega, fun _ => hzero, ?_, by omega⟩
      intro h
      exact canWarn_pre_preserve s i k h

/-- Ding events of one tick: at most one, none once k can no longer be
dinged, and the possibility of dinging k is consumed by the tick that emits
the ding and is never restored. -/
theorem stopTick_ding_step (numPoints numSteps : ℕ) (s : StopState)
    (i : StopInput) (k : ℕ) :
    countEv (isDingFor k) (stopTick numPoints numSteps s i).2 ≤ 1 ∧
    (¬ canDing k s → countEv (isDingFor k) (stopTick numPoints numSteps s i).2 = 0) ∧
    (¬ canDing k s → ¬ canDing k (stopTick numPoints numSteps s i).1) ∧
    (1 ≤ countEv (isDingFor k) (stopTick numPoints numSteps s i).2 →
      ¬ canDing k (stopTick numPoints numSteps s i).1) := by
  by_cases hg : numPoints ≤ s.targetIdx
  · rw [stopTick_guard numPoints numSteps s i hg]
    exact ⟨by simp [countEv], fun _ => by simp [countEv], fun h => h, by simp [countEv]⟩
  · have hg' : s.targetIdx < numPoints := not_le.mp hg
    rcases (Bool.eq_false_or_eq_true s.finished).symm with hf | hf
    · by_cases h45 : i.dStop ≤ 45
      · by_cases hnext : s.targetIdx + 1 < numPoints
        · rw [stopTick_advance numPoints numSteps s i hg' hf h45 hnext]
          have hcnt : countEv (isDingFor k)
              ((preArrival s i).2 ++ [Ev.arrive s.targetIdx
                (match i.dNext with | some d => jsRound d | none => 0)]) =
              countEv (isDingFor k) (preArrival s i).2 := by
            rw [countEv_append]
            simp
          refine ⟨?_, ?_, ?_, ?_⟩
          · rw [hcnt]
            exact preArrival_ding_count_le s i k
          · intro h
            rw [hcnt]
            exact preArrival_ding_count_zero s i k h
          · intro h
            exact not_reach_succ s.targetIdx k _ (not_canDing_le k s h)
          · intro h
            rw [hcnt] at h
            obtain ⟨hk, _⟩ := preArrival_ding_fire s i k h
            exact not_reach_succ s.targetIdx k _ (le_of_eq hk.symm)
        · rw [stopTick_finish numPoints numSteps s i hg' hf h45 hnext]
          have hcnt : countEv (isDingFor k) ((preArrival s i).2 ++ [Ev.finish]) =
              countEv (isDingFor k) (preArrival s i).2 := by
            rw [countEv_append]
            simp
          have hfin : ∀ (hq : k ≤ s.targetIdx),
              ¬ (s.targetIdx < k ∨ (s.targetIdx = k ∧ (true : Bool) = false ∧
                 (none : Option ℕ) ≠ some k)) := by
            intro hq
            rintro (hc | ⟨_, hcf, _⟩)
            · omega
            · exact Bool.noConfusion hcf
          refine ⟨?_, ?_, ?_, ?_⟩
          · rw [hcnt]
            exact preArrival_ding_count_le s i k
          · intro h
            rw [hcnt]
            exact preArrival_ding_count_zero s i k h
          · intro h
            exact hfin (not_canDing_le k s h)
          · intro h
            rw [hcnt] at h
            obtain ⟨hk, _⟩ := preArrival_ding_fire s i k h
            exact hfin (le_of_eq hk.symm)
      · rw [stopTick_noarrival numPoints numSteps s i hg' hf h45]
        rcases hdm : i.dman s.stepIdx with _ | dMan
        · refine ⟨preArrival_ding_count_le s i k, preArrival_ding_count_zero s i k,
            fun h => canDing_pre_preserve s i k h, fun h => canDing_pre_fire s i k h⟩
        · have hcnt : countEv (isDingFor k)
              ((preArrival s i).2 ++
                (if dMan ≤ 55 ∧ s.spokenStep ≠ some s.stepIdx
                 then [Ev.maneuver s.stepIdx (jsRound dMan)] else [])) =
              countEv (isDingFor k) (preArrival s i).2 := by
            rw [countEv_append]
            split_ifs <;> simp
          refine ⟨?_, ?_, ?_, ?_⟩
          · rw [hcnt]
            exact preArrival_ding_count_le s i k
          · intro h
            rw [hcnt]
            exact preArrival_ding_count_zero s i k h
          · intro h
            exact canDing_pre_preserve s i k h
          · intro h
            rw [hcnt] at h
            exact canDing_pre_fire s i k h
    · rw [stopTick_finished numPoints numSteps s i hg' hf]
      have hzero : countEv (isDingFor k) (preArrival s i).2 = 0 := by
        rw [preArrival_ding_count]
        split_ifs with hc
        · rw [hf] at hc
          exact absurd hc.1 (by simp)
        · rfl
      refine ⟨by omega, fun _ => hzero, ?_, by omega⟩
      intro h
      exact canDing_pre_preserve s i k h

end NavModel

namespace NavModel

/-- At most one stop warning per stop index over any replay; none once the
index can no longer be warned. -/
theorem stopRun_warn_le : ∀ (l : List StopInput) (np ns : ℕ) (s : StopState) (k : ℕ),
    countEv (isWarnFor k) (stopRun np ns s l).2 ≤ 1 ∧
    (¬ canWarn k s → countEv (isWarnFor k) (stopRun np ns s l).2 = 0)
  | [], np, ns, s, k => ⟨by simp [stopRun], fun _ => by simp [stopRun]⟩
  | i :: l, np, ns, s, k => by
    have step := stopTick_warn_step np ns s i k
    have ih := stopRun_warn_le l np ns (stopTick np ns s i).1 k
    simp only [stopRun, countEv_append]
    constructor
    · by_cases hfire : 1 ≤ countEv (isWarnFor k) (stopTick np ns s i).2
      · have htail := ih.2 (step.2.2.2 hfire)
        omega
      · have htail := ih.1
        omega
    · intro h
      have hhead := step.2.1 h
      have htail := ih.2 (step.2.2.1 h)
      omega

/-- At most one proximity ding per stop index over any replay; none once the
index can no longer be dinged. -/
theorem stopRun_ding_le : ∀ (l : List StopInput) (np ns : ℕ) (s : StopState) (k : ℕ),
    countEv (isDingFor k) (stopRun np ns s l).2 ≤ 1 ∧
    (¬ canDing k s → countEv (isDingFor k) (stopRun np ns s l).2 = 0)
  | [], np, ns, s, k => ⟨by simp [stopRun], fun _ => by simp [stopRun]⟩
  | i :: l, np, ns, s, k => by
    have step := stopTick_ding_step np ns s i k
    have ih := stopRun_ding_le l np ns (stopTick np ns s i).1 k
    simp only [stopRun, countEv_append]
    constructor
    · by_cases hfire : 1 ≤ countEv (isDingFor k) (stopTick np ns s i).2
      · have htail := ih.2 (step.2.2.2 hfire)
        omega
      · have htail := ih.1
        omega
    · intro h
      have hhead := step.2.1 h
      have htail := ih.2 (step.2.2.1 h)
      omega

/-- On a tick with a live target the warn events are the ones of the
banner/warning/ding phase. -/
theorem stopTick_warn_count_eq (numPoints numSteps : ℕ) (s : StopState)
    (i : StopInput) (k : ℕ) (hg : s.targetIdx < numPoints) :
    countEv (isWarnFor k) (stopTick numPoints numSteps s i).2 =
      countEv (isWarnFor k) (preArrival s i).2 := by
  rcases (Bool.eq_false_or_eq_true s.finished).symm with hf | hf
  · by_cases h45 : i.dStop ≤ 45
    · by_cases hnext : s.targetIdx + 1 < numPoints
      · rw [stopTick_advance numPoints numSteps s i hg hf h45 hnext, countEv_append]
        simp
      · rw [stopTick_finish numPoints numSteps s i hg hf h45 hnext, countEv_append]
        simp
    · rw [stopTick_noarrival numPoints numSteps s i hg hf h45]
      rcases i.dman s.stepIdx with _ | dMan
      · rfl
      · rw [countEv_append]
        split_ifs <;> simp
  · rw [stopTick_finished numPoints numSteps s i hg hf]

/-- On a tick with a live target the ding events are the ones of the
banner/warning/ding phase. -/
theorem stopTick_ding_count_eq (numPoints numSteps : ℕ) (s : StopState)
    (i : StopInput) (k : ℕ) (hg : s.targetIdx < numPoints) :
    countEv (isDingFor k) (stopTick numPoints numSteps s i).2 =
      countEv (isDingFor k) (preArrival s i).2 := by
  rcases (Bool.eq_false_or_eq_true s.finished).symm with hf | hf
  · by_cases h45 : i.dStop ≤ 45
    · by_cases hnext : s.targetIdx + 1 < numPoints
      · rw [stopTick_advance numPoints numSteps s i hg hf h45 hnext, countEv_append]
        simp
      · rw [stopTick_finish numPoints numSteps s i hg hf h45 hnext, countEv_append]
        simp
    · rw [stopTick_noarrival numPoints numSteps s i hg hf h45]
      rcases i.dman s.stepIdx with _ | dMan
      · rfl
      · rw [countEv_append]
        split_ifs <;> simp
  · rw [stopTick_finished numPoints numSteps s i hg hf]

end NavModel

namespace NavModel

/-! ### Claim C1 -/

/-- C1 counterexample: the claim states the ding zone is distance ≤ 10 m and
> 0, and that the ding is emitted on the first tick whose distance enters
that zone.  On a one-stop run whose single tick has distance 1.2 m — inside
the claimed zone (0 < 1.2 ≤ 10) — the code emits no ding at all (the code
requires the rounded distance to exceed 1 m, and Math.round(1.2) = 1): the
tick only announces completion, and the ding count for stop 0 is 0. -/
theorem claim_C1_counterexample :
    (0 : ℚ) < 12 / 10 ∧ (12 / 10 : ℚ) ≤ 10 ∧
    (stopRun 1 0 initialStopState
      [{ dStop := 12 / 10, speed := some 5, dNext := none, dman := fun _ => none }]).2 =
      [Ev.finish] ∧
    countEv (isDingFor 0)
      (stopRun 1 0 initialStopState
        [{ dStop := 12 / 10, speed := some 5, dNext := none, dman := fun _ => none }]).2 =
      0 := by
  refine ⟨by norm_num, by norm_num, ?_, ?_⟩
  · with_unfolding_all decide
  · with_unfolding_all decide

/-- C1 (amended): per stop index, at most one spoken stop warning and at most
one proximity ding are emitted over any replay, no matter how many ticks fall
in the trigger zones; a tick on which the warn or ding marker already records
the active stop emits no further warning resp. ding (idempotence); and the
ding is emitted on the first tick whose rounded distance enters the code's
ding zone (Math.round(d) ≤ 10 and > 1 — not > 0 as originally claimed) while
the run is not finished. -/
theorem claim_C1_once_per_stop :
    (∀ np ns s l k, countEv (isWarnFor k) (stopRun np ns s l).2 ≤ 1) ∧
    (∀ np ns s l k, countEv (isDingFor k) (stopRun np ns s l).2 ≤ 1) ∧
    (∀ np ns s i, s.targetIdx < np → s.finished = false →
      s.stopDing ≠ some s.targetIdx → 1 < jsRound i.dStop → jsRound i.dStop ≤ 10 →
      1 ≤ countEv (isDingFor s.targetIdx) (stopTick np ns s i).2) ∧
    (∀ np ns s i, s.stopDing = some s.targetIdx →
      countEv (isDingFor s.targetIdx) (stopTick np ns s i).2 = 0) ∧
    (∀ np ns s i, s.stopWarn = some s.targetIdx →
      countEv (isWarnFor s.targetIdx) (stopTick np ns s i).2 = 0) := by
  refine ⟨fun np ns s l k => (stopRun_warn_le l np ns s k).1,
          fun np ns s l k => (stopRun_ding_le l np ns s k).1, ?_, ?_, ?_⟩
  · intro np ns s i hg hf hd h1 h10
    rw [stopTick_ding_count_eq np ns s i s.targetIdx hg, preArrival_ding_count]
    split_ifs with hc
    · omega
    · exact absurd ⟨hf, h10, h1, hd, rfl⟩ hc
  · intro np ns s i hd
    by_cases hg : np ≤ s.targetIdx
    · rw [stopTick_guard np ns s i hg]
      simp
    · rw [stopTick_ding_count_eq np ns s i s.targetIdx (not_le.mp hg), preArrival_ding_count]
      split_ifs with hc
      · exact absurd hd hc.2.2.2.1
      · rfl
  · intro np ns s i hw
    by_cases hg : np ≤ s.targetIdx
    · rw [stopTick_guard np ns s i hg]
      simp
    · rw [stopTick_warn_count_eq np ns s i s.targetIdx (not_le.mp hg), preArrival_warn_count]
      split_ifs with hc
      · exact absurd hw hc.2.2.2.1
      · rfl

/-- Witness for C1 at a concrete tick: from the initial state of a two-stop
run, a tick at distance 5 m (rounded 5, inside the code's ding zone) emits a
ding for stop 0; and a state whose ding marker already records stop 0 emits
none. -/
theorem claim_C1_once_per_stop_witness :
    1 ≤ countEv (isDingFor 0)
      (stopTick 2 0 initialStopState
        { dStop := 5, speed := some 5, dNext := some 20, dman := fun _ => none }).2 ∧
    countEv (isDingFor 0)
      (stopTick 2 0 { initialStopState with stopDing := some 0 }
        { dStop := 5, speed := some 5, dNext := some 20, dman := fun _ => none }).2 = 0 :=
  ⟨claim_C1_once_per_stop.2.2.1 2 0 initialStopState
      { dStop := 5, speed := some 5, dNext := some 20, dman := fun _ => none }
      (by decide) rfl (by decide) (by with_unfolding_all decide)
      (by with_unfolding_all decide),
   claim_C1_once_per_stop.2.2.2.1 2 0 { initialStopState with stopDing := some 0 }
      { dStop := 5, speed := some 5, dNext := some 20, dman := fun _ => none } rfl⟩

end NavModel

namespace NavModel

/-! ### Claim C2: monotone banner distance -/

theorem jsRound_mono {a b : ℚ} (h : a ≤ b) : jsRound a ≤ jsRound b := by
  unfold jsRound
  exact Int.floor_le_floor (by linarith)

theorem round5_mono {m n : ℤ} (h : m ≤ n) : round5 m ≤ round5 n := by
  unfold round5
  have : ((m : ℚ)) / 5 ≤ ((n : ℚ)) / 5 := by
    apply div_le_div_of_nonneg_right ?_ ?_ <;> norm_num
    exact_mod_cast h
  have h2 := jsRound_mono this
  omega

theorem round5_dvd (m : ℤ) : (5 : ℤ) ∣ round5 m := Dvd.intro _ rfl

theorem round5_fixed {p : ℤ} (h : (5 : ℤ) ∣ p) : round5 p = p := by
  obtain ⟨q, rfl⟩ := h
  unfold round5 jsRound
  have h1 : ((5 * q : ℤ) : ℚ) / 5 = (q : ℚ) := by
    push_cast
    ring
  rw [h1, add_comm, Int.floor_add_int]
  norm_num

/-- The in-zone banner value never exceeds the previously stored (multiple
of 5) value. -/
theorem bannerShown_le (s : StopState) (raw : ℤ) {p : ℤ}
    (hp : s.stopBannerLastM = some p) (hdvd : (5 : ℤ) ∣ p) :
    bannerShown s raw ≤ p := by
  unfold bannerShown
  rw [hp]
  calc round5 (min p raw) ≤ round5 p := round5_mono (min_le_left p raw)
    _ = p := round5_fixed hdvd

theorem bannerShown_dvd (s : StopState) (raw : ℤ) :
    (5 : ℤ) ∣ bannerShown s raw := round5_dvd _

/-- A rounded distance above 45 implies a raw distance above 45. -/
theorem jsRound_gt_45 {d : ℚ} (h : 45 < jsRound d) : ¬ d ≤ 45 := by
  intro hc
  unfold jsRound at h
  have h46 : (46 : ℤ) ≤ ⌊d + 1/2⌋ := h
  have := (Int.le_floor).mp h46
  push_cast at this
  linarith

/-- Case analysis of the stored monotone banner value after one tick. -/
theorem stopTick_lastM_cases (numPoints numSteps : ℕ) (s : StopState) (i : StopInput) :
    (stopTick numPoints numSteps s i).1.stopBannerLastM = s.stopBannerLastM ∨
    (stopTick numPoints numSteps s i).1.stopBannerLastM = none ∨
    ∃ m : ℤ, (stopTick numPoints numSteps s i).1.stopBannerLastM = some (round5 m) := by
  by_cases hg : numPoints ≤ s.targetIdx
  · rw [stopTick_guard numPoints numSteps s i hg]
    exact Or.inl rfl
  · have hg' : s.targetIdx < numPoints := not_le.mp hg
    rcases (Bool.eq_false_or_eq_true s.finished).symm with hf | hf
    · by_cases h45 : i.dStop ≤ 45
      · by_cases hnext : s.targetIdx + 1 < numPoints
        · rw [stopTick_advance numPoints numSteps s i hg' hf h45 hnext]
          exact Or.inr (Or.inl rfl)
        · rw [stopTick_finish numPoints numSteps s i hg' hf h45 hnext]
          exact Or.inr (Or.inl rfl)
      · rw [stopTick_noarrival numPoints numSteps s i hg' hf h45]
        have hpre : (preArrival s i).1.stopBannerLastM = none ∨
            ∃ m : ℤ, (preArrival s i).1.stopBannerLastM = some (round5 m) := by
          rw [preArrival_stopBannerLastM]
          split_ifs
          · exact Or.inr ⟨_, rfl⟩
          · exact Or.inl rfl
        rcases i.dman s.stepIdx with _ | dMan
        · exact Or.inr hpre
        · exact Or.inr hpre
    · rw [stopTick_finished numPoints numSteps s i hg' hf]
      refine Or.inr ?_
      rw [preArrival_stopBannerLastM]
      split_ifs
      · exact Or.inr ⟨_, rfl⟩
      · exact Or.inl rfl

/-- Along any replay, every stored monotone banner value is a multiple of
5 m. -/
theorem stopRun_lastM_dvd : ∀ (l : List StopInput) (np ns : ℕ) (s : StopState),
    (∀ p, s.stopBannerLastM = some p → (5 : ℤ) ∣ p) →
    ∀ p, (stopRun np ns s l).1.stopBannerLastM = some p → (5 : ℤ) ∣ p
  | [], np, ns, s, hs => by
    simpa [stopRun] using hs
  | i :: l, np, ns, s, hs => by
    simp only [stopRun]
    refine stopRun_lastM_dvd l np ns (stopTick np ns s i).1 ?_
    rcases stopTick_lastM_cases np ns s i with hc | hc | ⟨m, hc⟩
    · rw [hc]
      exact hs
    · rw [hc]
      intro p hp
      exact absurd hp (by simp)
    · rw [hc]
      intro p hp
      rw [Option.some_inj] at hp
      rw [← hp]
      exact round5_dvd m

end NavModel

namespace NavModel

/-- In-zone tick: the banner is shown with the monotone rounded value and
the frozen maximum, and the value is stored. -/
theorem stopTick_banner_inZone (numPoints numSteps : ℕ) (s : StopState)
    (i : StopInput) (W : ℤ) (hg : s.targetIdx < numPoints)
    (hf : s.finished = false) (hW : s.stopWarnMax = some W)
    (hle : jsRound i.dStop ≤ W) (hgt : 45 < jsRound i.dStop) :
    (stopTick numPoints numSteps s i).1.stopBanner =
      ⟨true, bannerShown s (jsRound i.dStop), W⟩ ∧
    (stopTick numPoints numSteps s i).1.stopBannerLastM =
      some (bannerShown s (jsRound i.dStop)) := by
  have hTW : tickWarnMax s i = W := by
    simp [tickWarnMax, hW]
  have h45 : ¬ i.dStop ≤ 45 := jsRound_gt_45 hgt
  rw [stopTick_noarrival numPoints numSteps s i hg hf h45]
  have hcond : s.finished = false ∧ jsRound i.dStop ≤ tickWarnMax s i ∧
      45 < jsRound i.dStop := ⟨hf, by rw [hTW]; exact hle, hgt⟩
  have hban : (preArrival s i).1.stopBanner =
      ⟨true, bannerShown s (jsRound i.dStop), W⟩ := by
    rw [preArrival_stopBanner, if_pos hcond, hTW]
  have hlast : (preArrival s i).1.stopBannerLastM =
      some (bannerShown s (jsRound i.dStop)) := by
    rw [preArrival_stopBannerLastM, if_pos hcond]
  rcases i.dman s.stepIdx with _ | dMan
  · exact ⟨hban, hlast⟩
  · exact ⟨hban, hlast⟩

/-- Out-of-zone tick: the banner is hidden and the monotone tracker is
reset. -/
theorem stopTick_banner_outZone (numPoints numSteps : ℕ) (s : StopState)
    (i : StopInput) (hg : s.targetIdx < numPoints)
    (hout : ¬ (s.finished = false ∧ jsRound i.dStop ≤ tickWarnMax s i ∧
      45 < jsRound i.dStop)) :
    (stopTick numPoints numSteps s i).1.stopBanner.showFlag = false ∧
    (stopTick numPoints numSteps s i).1.stopBannerLastM = none := by
  have hpre : (preArrival s i).1.stopBanner.showFlag = false ∧
      (preArrival s i).1.stopBannerLastM = none := by
    rw [preArrival_stopBanner, preArrival_stopBannerLastM, if_neg hout, if_neg hout]
    refine ⟨?_, rfl⟩
    split_ifs with hb
    · rfl
    · simpa using hb
  rcases (Bool.eq_false_or_eq_true s.finished).symm with hf | hf
  · by_cases h45 : i.dStop ≤ 45
    · by_cases hnext : s.targetIdx + 1 < numPoints
      · rw [stopTick_advance numPoints numSteps s i hg hf h45 hnext]
        exact ⟨rfl, rfl⟩
      · rw [stopTick_finish numPoints numSteps s i hg hf h45 hnext]
        exact ⟨rfl, rfl⟩
    · rw [stopTick_noarrival numPoints numSteps s i hg hf h45]
      rcases i.dman s.stepIdx with _ | dMan
      · exact hpre
      · exact hpre
  · rw [stopTick_finished numPoints numSteps s i hg hf]
    exact hpre

/-! ### Claim C2 -/

/-- C2: while a tick stays inside the frozen warning zone (rounded distance
at most the frozen threshold and above the 45 m arrival radius), the banner
is shown with a value that is a multiple of 5 m and never exceeds the
previously stored value (so the displayed distance is non-increasing tick to
tick even if the raw distance jitters upward); every stored value along a
replay from the initial state is a multiple of 5 m; and on any tick that is
not inside the zone the banner is hidden and the monotone tracker is reset
to null. -/
theorem claim_C2_banner_monotone :
    (∀ np ns s i (W : ℤ), s.targetIdx < np → s.finished = false →
      s.stopWarnMax = some W → jsRound i.dStop ≤ W → 45 < jsRound i.dStop →
      (stopTick np ns s i).1.stopBanner =
        ⟨true, bannerShown s (jsRound i.dStop), W⟩ ∧
      (stopTick np ns s i).1.stopBannerLastM =
        some (bannerShown s (jsRound i.dStop)) ∧
      (5 : ℤ) ∣ bannerShown s (jsRound i.dStop) ∧
      (∀ p, s.stopBannerLastM = some p → (5 : ℤ) ∣ p →
        bannerShown s (jsRound i.dStop) ≤ p)) ∧
    (∀ np ns s i, s.targetIdx < np →
      ¬ (s.finished = false ∧ jsRound i.dStop ≤ tickWarnMax s i ∧
        45 < jsRound i.dStop) →
      (stopTick np ns s i).1.stopBanner.showFlag = false ∧
      (stopTick np ns s i).1.stopBannerLastM = none) ∧
    (∀ np ns l p,
      (stopRun np ns initialStopState l).1.stopBannerLastM = some p →
      (5 : ℤ) ∣ p) := by
  refine ⟨?_, ?_, ?_⟩
  · intro np ns s i W hg hf hW hle hgt
    obtain ⟨h1, h2⟩ := stopTick_banner_inZone np ns s i W hg hf hW hle hgt
    exact ⟨h1, h2, bannerShown_dvd s _, fun p hp hdvd => bannerShown_le s _ hp hdvd⟩
  · exact stopTick_banner_outZone
  · intro np ns l p
    exact stopRun_lastM_dvd l np ns initialStopState (by intro p hp; exact absurd hp (by simp [initialStopState])) p

/-- Concrete state for the C2 witness: threshold frozen at 150 m, previous
banner value 100 m. -/
def c2State : StopState :=
  { initialStopState with stopWarnMax := some 150, stopBannerLastM := some 100 }

/-- Concrete input for the C2 witness: raw distance 97 m. -/
def c2Input : StopInput :=
  { dStop := 97, speed := some 5, dNext := none, dman := fun _ => none }

/-- Witness for C2 at a concrete in-zone tick: threshold frozen at 150 m,
previous banner value 100 m, raw distance 97 m: the banner shows
round5(min 100 97) = 95 ≤ 100, a multiple of 5. -/
theorem claim_C2_banner_monotone_witness :
    ((stopTick 1 0 c2State c2Input).1.stopBanner =
        ⟨true, bannerShown c2State (jsRound 97), 150⟩ ∧
      (stopTick 1 0 c2State c2Input).1.stopBannerLastM =
        some (bannerShown c2State (jsRound 97)) ∧
      (5 : ℤ) ∣ bannerShown c2State (jsRound 97) ∧
      (∀ p, c2State.stopBannerLastM = some p → (5 : ℤ) ∣ p →
        bannerShown c2State (jsRound 97) ≤ p)) ∧
    bannerShown c2State (jsRound 97) = 95 :=
  ⟨claim_C2_banner_monotone.1 1 0 c2State c2Input 150
      (by decide) rfl rfl (by with_unfolding_all decide) (by with_unfolding_all decide),
   by with_unfolding_all decide⟩

end NavModel

namespace NavModel

/-- A tick taken after the run finished emits no events and keeps the
finished flag. -/
theorem stopTick_finished_silent (numPoints numSteps : ℕ) (s : StopState)
    (i : StopInput) (hf : s.finished = true) :
    (stopTick numPoints numSteps s i).2 = [] ∧
    (stopTick numPoints numSteps s i).1.finished = true := by
  by_cases hg : numPoints ≤ s.targetIdx
  · rw [stopTick_guard numPoints numSteps s i hg]
    exact ⟨rfl, hf⟩
  · rw [stopTick_finished numPoints numSteps s i (not_le.mp hg) hf]
    constructor
    · rw [preArrival_evs, hf]
      simp
    · exact hf

/-- A replay started in the finished state emits nothing and stays
finished. -/
theorem stopRun_finished_silent : ∀ (l : List StopInput) (np ns : ℕ) (s : StopState),
    s.finished = true →
    (stopRun np ns s l).2 = [] ∧ (stopRun np ns s l).1.finished = true
  | [], np, ns, s, hf => ⟨rfl, hf⟩
  | i :: l, np, ns, s, hf => by
    obtain ⟨h1, h2⟩ := stopTick_finished_silent np ns s i hf
    obtain ⟨h3, h4⟩ := stopRun_finished_silent l np ns (stopTick np ns s i).1 h2
    simp only [stopRun]
    exact ⟨by simp [h1, h3], h4⟩

/-! ### Claim C3 -/

/-- C3: an arrival tick (distance at most 45 m, run live) with a remaining
stop advances the active index by exactly one and resets every per-stop
marker (warn marker, frozen threshold, monotone banner value, ding marker,
maneuver-announcement marker); an arrival tick at the last stop sets the
finished flag instead and keeps the index; once finished, a tick emits no
event, keeps the finished flag and hides the banner, and a whole replay
started finished emits nothing (Finished is terminal). -/
theorem claim_C3_arrival_advance :
    (∀ np ns s i, s.targetIdx < np → s.finished = false → i.dStop ≤ 45 →
      s.targetIdx + 1 < np →
      (stopTick np ns s i).1.targetIdx = s.targetIdx + 1 ∧
      (stopTick np ns s i).1.stopWarn = none ∧
      (stopTick np ns s i).1.stopWarnMax = none ∧
      (stopTick np ns s i).1.stopBannerLastM = none ∧
      (stopTick np ns s i).1.stopDing = none ∧
      (stopTick np ns s i).1.spokenStep = none ∧
      (stopTick np ns s i).1.finished = false) ∧
    (∀ np ns s i, s.targetIdx < np → s.finished = false → i.dStop ≤ 45 →
      ¬ s.targetIdx + 1 < np →
      (stopTick np ns s i).1.finished = true ∧
      (stopTick np ns s i).1.targetIdx = s.targetIdx) ∧
    (∀ np ns s i, s.finished = true →
      (stopTick np ns s i).2 = [] ∧ (stopTick np ns s i).1.finished = true) ∧
    (∀ np ns s i, s.targetIdx < np → s.finished = true →
      (stopTick np ns s i).1.stopBanner.showFlag = false) ∧
    (∀ np ns s l, s.finished = true →
      (stopRun np ns s l).2 = [] ∧ (stopRun np ns s l).1.finished = true) := by
  refine ⟨?_, ?_, ?_, ?_, ?_⟩
  · intro np ns s i hg hf h45 hnext
    rw [stopTick_advance np ns s i hg hf h45 hnext]
    exact ⟨rfl, rfl, rfl, rfl, rfl, rfl, hf⟩
  · intro np ns s i hg hf h45 hnext
    rw [stopTick_finish np ns s i hg hf h45 hnext]
    exact ⟨rfl, rfl⟩
  · exact stopTick_finished_silent
  · intro np ns s i hg hf
    exact (stopTick_banner_outZone np ns s i hg
      (fun hc => Bool.noConfusion (hf ▸ hc.1))).1
  · exact fun np ns s l hf => stopRun_finished_silent l np ns s hf

/-- Witness for C3: from the initial state of a two-stop run, a tick at
30 m advances to stop 1 with all markers reset; from a finished state every
replay is silent. -/
theorem claim_C3_arrival_advance_witness :
    ((stopTick 2 0 initialStopState
        { dStop := 30, speed := some 5, dNext := some 200, dman := fun _ => none }).1.targetIdx = 0 + 1 ∧
      (stopTick 2 0 initialStopState
        { dStop := 30, speed := some 5, dNext := some 200, dman := fun _ => none }).1.stopWarn = none ∧
      (stopTick 2 0 initialStopState
        { dStop := 30, speed := some 5, dNext := some 200, dman := fun _ => none }).1.stopWarnMax = none ∧
      (stopTick 2 0 initialStopState
        { dStop := 30, speed := some 5, dNext := some 200, dman := fun _ => none }).1.stopBannerLastM = none ∧
      (stopTick 2 0 initialStopState
        { dStop := 30, speed := some 5, dNext := some 200, dman := fun _ => none }).1.stopDing = none ∧
      (stopTick 2 0 initialStopState
        { dStop := 30, speed := some 5, dNext := some 200, dman := fun _ => none }).1.spokenStep = none ∧
      (stopTick 2 0 initialStopState
        { dStop := 30, speed := some 5, dNext := some 200, dman := fun _ => none }).1.finished = false) ∧
    ((stopRun 1 0 { initialStopState with finished := true }
        [{ dStop := 30, speed := some 5, dNext := none, dman := fun _ => none }]).2 = [] ∧
      (stopRun 1 0 { initialStopState with finished := true }
        [{ dStop := 30, speed := some 5, dNext := none, dman := fun _ => none }]).1.finished = true) :=
  ⟨claim_C3_arrival_advance.1 2 0 initialStopState
      { dStop := 30, speed := some 5, dNext := some 200, dman := fun _ => none }
      (by decide) rfl (by with_unfolding_all decide) (by decide),
   claim_C3_arrival_advance.2.2.2.2 1 0 { initialStopState with finished := true }
      [{ dStop := 30, speed := some 5, dNext := none, dman := fun _ => none }] rfl⟩

end NavModel

namespace NavModel

/-- A warn event of the banner phase always carries the tick's threshold
and the active stop index. -/
theorem warn_mem_preArrival (s : StopState) (i : StopInput) (k : ℕ) (w : ℤ)
    (h : Ev.warn k w ∈ (preArrival s i).2) :
    w = tickWarnMax s i ∧ k = s.targetIdx := by
  rw [preArrival_evs] at h
  rcases List.mem_append.mp h with h | h
  · split_ifs at h with hc
    · have := List.mem_singleton.mp h
      simp only [Ev.warn.injEq] at this
      exact ⟨this.2, this.1⟩
    · simp at h
  · split_ifs at h with hc
    · simp at h
    · simp at h

/-- A warn event of a whole tick always carries the tick's threshold. -/
theorem warn_mem_stopTick (numPoints numSteps : ℕ) (s : StopState)
    (i : StopInput) (k : ℕ) (w : ℤ)
    (h : Ev.warn k w ∈ (stopTick numPoints numSteps s i).2) :
    w = tickWarnMax s i ∧ k = s.targetIdx := by
  by_cases hg : numPoints ≤ s.targetIdx
  · rw [stopTick_guard numPoints numSteps s i hg] at h
    simp at h
  · have hg' : s.targetIdx < numPoints := not_le.mp hg
    rcases (Bool.eq_false_or_eq_true s.finished).symm with hf | hf
    · by_cases h45 : i.dStop ≤ 45
      · by_cases hnext : s.targetIdx + 1 < numPoints
        · rw [stopTick_advance numPoints numSteps s i hg' hf h45 hnext] at h
          rcases List.mem_append.mp h with h | h
          · exact warn_mem_preArrival s i k w h
          · simp at h
        · rw [stopTick_finish numPoints numSteps s i hg' hf h45 hnext] at h
          rcases List.mem_append.mp h with h | h
          · exact warn_mem_preArrival s i k w h
          · simp at h
      · rw [stopTick_noarrival numPoints numSteps s i hg' hf h45] at h
        rcases hdm : i.dman s.stepIdx with _ | dMan
        · simp only [hdm] at h
          exact warn_mem_preArrival s i k w h
        · simp only [hdm] at h
          rcases List.mem_append.mp h with h | h
          · exact warn_mem_preArrival s i k w h
          · split_ifs at h <;> simp at h
    · rw [stopTick_finished numPoints numSteps s i hg' hf] at h
      exact warn_mem_preArrival s i k w h

/-! ### Claim C6 -/

/-- C6 counterexample: the claim states that the warning threshold is frozen
on the first tick the fix enters the stop's warning zone (150 m zone at the
tick's speed below 80 km/h, 200 m otherwise).  In the code the threshold is
frozen on the first processed tick of the approach, whatever the distance:
after a single tick at 5000 m — far outside any candidate warning zone
(5000 rounds above both 150 and 200) — with speed 25 m/s (90 km/h), the
frozen threshold is already 200 m; and on the following tick at 180 m with
speed 10 m/s (36 km/h, below 80 km/h), the spoken warning announces 200 m,
although under the claim the threshold for this approach would be frozen at
150 m on this first zone-entry tick and 180 m would be outside that zone
(no warning). -/
theorem claim_C6_counterexample :
    (stopRun 1 0 initialStopState
      [{ dStop := 5000, speed := some 25, dNext := none, dman := fun _ => none }]).1.stopWarnMax
      = some 200 ∧
    (200 : ℤ) < jsRound 5000 ∧ (150 : ℤ) < jsRound 5000 ∧
    (stopRun 1 0 initialStopState
      [{ dStop := 5000, speed := some 25, dNext := none, dman := fun _ => none },
       { dStop := 180, speed := some 10, dNext := none, dman := fun _ => none }]).2
      = [Ev.warn 0 200] ∧
    (10 : ℚ) * (36 / 10) < 80 := by
  refine ⟨?_, ?_, ?_, ?_, by norm_num⟩
  · with_unfolding_all decide
  · with_unfolding_all decide
  · with_unfolding_all decide
  · with_unfolding_all decide

/-- C6 (amended): the warning threshold is frozen on the first processed
tick of the approach to a stop — whether or not the fix is inside the
warning zone — at warnStopMeters of that tick's speed (150 m below 80 km/h,
200 m otherwise, missing speed counting as 0); once frozen it is held
unchanged by every further non-arrival tick of the approach; and every
spoken warning announces exactly the tick's (frozen) threshold. -/
theorem claim_C6_frozen_threshold :
    (∀ np ns s i, s.targetIdx < np → s.stopWarnMax = none →
      ¬ (s.finished = false ∧ i.dStop ≤ 45) →
      (stopTick np ns s i).1.stopWarnMax = some (warnStopMeters i.speed)) ∧
    (∀ np ns s i (w : ℤ), s.targetIdx < np → s.stopWarnMax = some w →
      ¬ (s.finished = false ∧ i.dStop ≤ 45) →
      (stopTick np ns s i).1.stopWarnMax = some w) ∧
    (∀ np ns s i k (w : ℤ), Ev.warn k w ∈ (stopTick np ns s i).2 →
      w = tickWarnMax s i ∧ k = s.targetIdx) ∧
    (∀ v : ℚ, warnStopMeters (some v) = if 80 ≤ v * (36 / 10) then 200 else 150) ∧
    warnStopMeters none = 150 := by
  refine ⟨?_, ?_, warn_mem_stopTick, fun v => rfl, rfl⟩
  · intro np ns s i hg hnone hnoarr
    have hTW : tickWarnMax s i = warnStopMeters i.speed := by
      simp [tickWarnMax, hnone]
    rcases (Bool.eq_false_or_eq_true s.finished).symm with hf | hf
    · have h45 : ¬ i.dStop ≤ 45 := fun hc => hnoarr ⟨hf, hc⟩
      rw [stopTick_noarrival np ns s i hg hf h45]
      rcases i.dman s.stepIdx with _ | dMan
      · rw [preArrival_stopWarnMax, hTW]
      · show (preArrival s i).1.stopWarnMax = _
        rw [preArrival_stopWarnMax, hTW]
    · rw [stopTick_finished np ns s i hg hf, preArrival_stopWarnMax, hTW]
  · intro np ns s i w hg hsome hnoarr
    have hTW : tickWarnMax s i = w := by
      simp [tickWarnMax, hsome]
    rcases (Bool.eq_false_or_eq_true s.finished).symm with hf | hf
    · have h45 : ¬ i.dStop ≤ 45 := fun hc => hnoarr ⟨hf, hc⟩
      rw [stopTick_noarrival np ns s i hg hf h45]
      rcases i.dman s.stepIdx with _ | dMan
      · rw [preArrival_stopWarnMax, hTW]
      · show (preArrival s i).1.stopWarnMax = _
        rw [preArrival_stopWarnMax, hTW]
    · rw [stopTick_finished np ns s i hg hf, preArrival_stopWarnMax, hTW]

/-- Witness for C6: a first tick of an approach at 5000 m with speed 25 m/s
freezes the threshold at warnStopMeters (200 m); a later tick at 100 m
holds a previously frozen 200 m threshold. -/
theorem claim_C6_frozen_threshold_witness :
    (stopTick 1 0 initialStopState
      { dStop := 5000, speed := some 25, dNext := none, dman := fun _ => none }).1.stopWarnMax
      = some (warnStopMeters (some 25)) ∧
    (stopTick 1 0 { initialStopState with stopWarnMax := some 200 }
      { dStop := 100, speed := some 10, dNext := none, dman := fun _ => none }).1.stopWarnMax
      = some 200 :=
  ⟨claim_C6_frozen_threshold.1 1 0 initialStopState
      { dStop := 5000, speed := some 25, dNext := none, dman := fun _ => none }
      (by decide) rfl (by with_unfolding_all decide),
   claim_C6_frozen_threshold.2.1 1 0 { initialStopState with stopWarnMax := some 200 }
      { dStop := 100, speed := some 10, dNext := none, dman := fun _ => none } 200
      (by decide) rfl (by with_unfolding_all decide)⟩

end NavModel

namespace NavModel

/-! ### Instruction normalization (NavLive.tsx lines 14-22 and 256-295) -/

/-- Maneuver step as delivered by the route provider (NavLive.tsx lines
14-22); distance and duration are nullable at runtime (the code guards with
!= null), the text fields default to the empty string (the code reads them
with || ""). -/
structure Step where
  distance : Option ℚ
  duration : Option ℚ
  name : String
  instruction : String
  type : String
  modifier : String
deriving DecidableEq, Repr

/-- Model of JS String.prototype.includes over explicit character lists. -/
def listContains (needle : List Char) : List Char → Bool
  | [] => needle.isEmpty
  | c :: rest => needle.isPrefixOf (c :: rest) || listContains needle rest

/-- Model of JS s.includes(sub). -/
def jsIncludes (s sub : String) : Bool := listContains sub.data s.data

/-- Keyword list of isRampLike (NavLive.tsx line 261). -/
def rampKeywords : List String :=
  ["bretelle", "rampe", "sortie", "entrée", "autoroute", "merge", "fork",
   "ramp", "exit", "slip", "junction"]

/-- Embedding of isRampLike (NavLive.tsx lines 257-263): keyword match
against the lowercased type, instruction and street name. -/
def isRampLike (step : Step) : Bool :=
  let t := step.type.toLower
  let i := step.instruction.toLower
  let n := step.name.toLower
  rampKeywords.any (fun k => jsIncludes t k || jsIncludes i k || jsIncludes n k)

/-- Embedding of isMinorSlight (NavLive.tsx lines 265-273). -/
def isMinorSlight (step : Step) : Bool :=
  let m := step.modifier.toLower
  let isSlight := jsIncludes m "slight" || jsIncludes m "bear" || jsIncludes m "keep"
  if !isSlight then false
  else if isRampLike step then false
  else if (match step.distance with | some d => decide (d < 180) | none => false) then true
  else if (match step.duration with | some d => decide (d < 20) | none => false) then true
  else true

/-- Embedding of normalizeInstruction (NavLive.tsx lines 275-295). -/
def normalizeInstruction : Option Step → String
  | none => ""
  | some step =>
    if step.instruction = "" then ""
    else if isMinorSlight step then
      (if step.name ≠ "" then "Continuez sur " ++ step.name else "Continuez tout droit")
    else
      let m := step.modifier.toLower
      if jsIncludes m "uturn" then "Faites demi-tour"
      else if jsIncludes m "left" then
        (if step.name ≠ "" then "Tournez à gauche sur " ++ step.name
         else "Tournez à gauche")
      else if jsIncludes m "right" then
        (if step.name ≠ "" then "Tournez à droite sur " ++ step.name
         else "Tournez à droite")
      else if (jsIncludes m "slight" || jsIncludes m "bear" || jsIncludes m "keep")
          && isRampLike step then
        let dir :=
          if jsIncludes m "left" then "à gauche"
          else if jsIncludes m "right" then "à droite"
          else ""
        if step.name ≠ "" then
          (if dir ≠ "" then "Prenez la bretelle " ++ dir ++ " vers " ++ step.name
           else "Prenez la bretelle vers " ++ step.name)
        else
          (if dir ≠ "" then "Prenez la bretelle " ++ dir else "Prenez la bretelle")
      else (if step.name ≠ "" then "Continuez sur " ++ step.name
            else "Continuez tout droit")

/-- A slight/bear/keep step that is not ramp-like is always minor. -/
theorem isMinorSlight_of_slight (st : Step)
    (hm : (jsIncludes st.modifier.toLower "slight" ||
           jsIncludes st.modifier.toLower "bear" ||
           jsIncludes st.modifier.toLower "keep") = true)
    (hr : isRampLike st = false) : isMinorSlight st = true := by
  unfold isMinorSlight
  simp only [hm, hr, Bool.not_true, Bool.false_eq_true, if_false]
  split_ifs <;> rfl

/-! ### Claim C7 -/

/-- C7: every maneuver step with a slight/bear/keep modifier that is not
classified ramp-like is normalized to the generic continue phrasing with the
street name (when instruction and street name are non-empty); in particular
the scenario step (modifier "slight right", type "turn", distance 100,
street "Rue Principale") normalizes to "Continuez sur Rue Principale". -/
theorem claim_C7_slight_suppressed :
    (∀ st : Step, st.instruction ≠ "" →
      (jsIncludes st.modifier.toLower "slight" ||
       jsIncludes st.modifier.toLower "bear" ||
       jsIncludes st.modifier.toLower "keep") = true →
      isRampLike st = false → st.name ≠ "" →
      normalizeInstruction (some st) = "Continuez sur " ++ st.name) ∧
    normalizeInstruction (some
      { distance := some 100, duration := some 10, name := "Rue Principale",
        instruction := "Continue slightly right", type := "turn",
        modifier := "slight right" }) = "Continuez sur Rue Principale" := by
  constructor
  · intro st hinstr hm hr hname
    have hmin := isMinorSlight_of_slight st hm hr
    unfold normalizeInstruction
    simp [hinstr, hmin, hname]
  · with_unfolding_all decide

/-- Witness for C7: the general statement applied to the scenario step. -/
theorem claim_C7_slight_suppressed_witness :
    normalizeInstruction (some
      { distance := some 100, duration := some 10, name := "Rue Principale",
        instruction := "Continue slightly right", type := "turn",
        modifier := "slight right" }) = "Continuez sur " ++ "Rue Principale" :=
  claim_C7_slight_suppressed.1
    { distance := some 100, duration := some 10, name := "Rue Principale",
      instruction := "Continue slightly right", type := "turn",
      modifier := "slight right" }
    (by decide) (by with_unfolding_all decide) (by with_unfolding_all decide)
    (by decide)

end NavModel

namespace NavModel

/-! ### Point-to-polyline distance (NavLive.tsx lines 63-65, 96-150)

The source projects coordinates with projectMeters (an equirectangular
projection around the fix's latitude, computed with floating-point
trigonometry) and then works with planar distances via Math.hypot.  The
embedding below keeps every quantity rational: the projection is an
arbitrary function proj standing for projectMeters originLat (the theorems
hold for every projection, hence for the source's), and distances are
replaced by their squares (Math.hypot x y squared is x^2 + y^2), so a source
distance d corresponds to the value d^2 here; the source's degenerate-
segment test denom <= 1e-9 already applies to a squared length and is kept
verbatim. -/

/-- Latitude/longitude pair in degrees. -/
structure GeoPoint where
  lat : ℚ
  lng : ℚ
deriving DecidableEq, Repr

/-- clamp (NavLive.tsx lines 63-65): Math.max(a, Math.min(b, v)). -/
def clamp (v a b : ℚ) : ℚ := max a (min b v)

/-- Squared form of distPointToSegmentMeters (NavLive.tsx lines 107-134). -/
def distPointToSegmentMetersSq (proj : GeoPoint → ℚ × ℚ) (p a b : GeoPoint) : ℚ :=
  let P := proj p
  let A := proj a
  let B := proj b
  let ABx := B.1 - A.1
  let ABy := B.2 - A.2
  let APx := P.1 - A.1
  let APy := P.2 - A.2
  let denom := ABx * ABx + ABy * ABy
  if denom ≤ 1 / 1000000000 then (P.1 - A.1) ^ 2 + (P.2 - A.2) ^ 2
  else
    let t := clamp ((APx * ABx + APy * ABy) / denom) 0 1
    let cx := A.1 + t * ABx
    let cy := A.2 + t * ABy
    (P.1 - cx) ^ 2 + (P.2 - cy) ^ 2

/-- Squared form of minDistanceToPolylineMeters (NavLive.tsx lines 136-150):
none for a polyline with fewer than 2 points, else the minimum over the
consecutive segments. -/
def minDistanceToPolylineMetersSq (proj : GeoPoint → ℚ × ℚ) (me : GeoPoint)
    (line : List GeoPoint) : Option ℚ :=
  if line.length < 2 then none
  else
    match (line.zip line.tail).map
        (fun ab => distPointToSegmentMetersSq proj me ab.1 ab.2) with
    | [] => none
    | d :: ds => some (ds.foldl min d)

theorem distSq_nonneg (proj : GeoPoint → ℚ × ℚ) (p a b : GeoPoint) :
    0 ≤ distPointToSegmentMetersSq proj p a b := by
  simp only [distPointToSegmentMetersSq]
  split_ifs <;> positivity

/-- A vertex has squared distance 0 to its outgoing segment. -/
theorem distSq_self_left (proj : GeoPoint → ℚ × ℚ) (p b : GeoPoint) :
    distPointToSegmentMetersSq proj p p b = 0 := by
  simp only [distPointToSegmentMetersSq, sub_self]
  split_ifs
  · ring
  · have ht : clamp ((0 * ((proj b).1 - (proj p).1) + 0 * ((proj b).2 - (proj p).2)) /
        (((proj b).1 - (proj p).1) * ((proj b).1 - (proj p).1) +
         ((proj b).2 - (proj p).2) * ((proj b).2 - (proj p).2))) 0 1 = 0 := by
      simp [clamp]
    rw [ht]
    ring

/-- A vertex has squared distance at most 1e-9 to its incoming segment
(exactly 0 unless the segment is degenerate but nonzero). -/
theorem distSq_self_right (proj : GeoPoint → ℚ × ℚ) (p a : GeoPoint) :
    distPointToSegmentMetersSq proj p a p ≤ 1 / 1000000000 := by
  simp only [distPointToSegmentMetersSq]
  split_ifs with h
  · calc ((proj p).1 - (proj a).1) ^ 2 + ((proj p).2 - (proj a).2) ^ 2
        = ((proj p).1 - (proj a).1) * ((proj p).1 - (proj a).1) +
          ((proj p).2 - (proj a).2) * ((proj p).2 - (proj a).2) := by ring
      _ ≤ 1 / 1000000000 := h
  · have hpos : (0 : ℚ) < ((proj p).1 - (proj a).1) * ((proj p).1 - (proj a).1) +
        ((proj p).2 - (proj a).2) * ((proj p).2 - (proj a).2) := by
      have := lt_of_not_le h
      linarith
    have hnum : ((proj p).1 - (proj a).1) * ((proj p).1 - (proj a).1) +
        ((proj p).2 - (proj a).2) * ((proj p).2 - (proj a).2) ≠ 0 := ne_of_gt hpos
    rw [div_self hnum]
    have ht : clamp 1 0 1 = 1 := by
      simp [clamp]
    rw [ht]
    have : ((proj p).1 - ((proj a).1 + 1 * ((proj p).1 - (proj a).1))) ^ 2 +
        ((proj p).2 - ((proj a).2 + 1 * ((proj p).2 - (proj a).2))) ^ 2 = 0 := by
      ring
    rw [this]
    norm_num

theorem foldl_min_le_head (l : List ℚ) (a : ℚ) : l.foldl min a ≤ a := by
  induction l generalizing a with
  | nil => exact le_refl a
  | cons x l ih => exact le_trans (ih (min a x)) (min_le_left a x)

theorem foldl_min_le_mem (l : List ℚ) (a : ℚ) (x : ℚ) (hx : x ∈ l) :
    l.foldl min a ≤ x := by
  induction l generalizing a with
  | nil => exact absurd hx (by simp)
  | cons y l ih =>
    rcases List.mem_cons.mp hx with rfl | hx
    · exact le_trans (foldl_min_le_head l (min a x)) (min_le_right a x)
    · exact ih (min a y) hx

theorem le_foldl_min (l : List ℚ) (a c : ℚ) (hc : c ≤ a) (h : ∀ x ∈ l, c ≤ x) :
    c ≤ l.foldl min a := by
  induction l generalizing a with
  | nil => exact hc
  | cons y l ih =>
    exact ih (min a y) (le_min hc (h y (List.mem_cons_self y l)))
      (fun x hx => h x (List.mem_cons_of_mem y hx))

/-- Every vertex of a polyline with at least two points is an endpoint of
one of its consecutive segments. -/
theorem mem_adjacent : ∀ (line : List GeoPoint) (p : GeoPoint), p ∈ line →
    2 ≤ line.length →
    (∃ b, (p, b) ∈ line.zip line.tail) ∨ (∃ a, (a, p) ∈ line.zip line.tail)
  | [], p, hp, _ => absurd hp (by simp)
  | [_], _, _, hl => by simp at hl
  | x :: y :: rest, p, hp, _ => by
    rcases List.mem_cons.mp hp with rfl | hp
    · refine Or.inl ⟨y, ?_⟩
      simp [List.zip_cons_cons]
    · rcases rest with _ | ⟨z, rest2⟩
      · have hpy : p = y := by simpa using hp
        subst hpy
        refine Or.inr ⟨x, ?_⟩
        simp [List.zip_cons_cons]
      · rcases mem_adjacent (y :: z :: rest2) p hp (by simp) with ⟨b, hb⟩ | ⟨a, ha⟩
        · refine Or.inl ⟨b, ?_⟩
          rw [List.tail_cons, List.zip_cons_cons]
          exact List.mem_cons_of_mem _ hb
        · refine Or.inr ⟨a, ?_⟩
          rw [List.tail_cons, List.zip_cons_cons]
          exact List.mem_cons_of_mem _ ha

/-! ### Claim C8 -/

/-- C8: replaying a recorded trace against itself reports on-route
everywhere: for every projection, every polyline with at least 2 points and
every vertex p of it, the minimum squared point-to-polyline distance is
defined, nonnegative and at most 1e-9 square meters (the source's
degenerate-segment threshold) — i.e. the source's distance is at most about
3.2e-5 m, and exactly 0 except possibly at the last vertex of a degenerate
final segment. -/
theorem claim_C8_polyline_roundtrip (proj : GeoPoint → ℚ × ℚ)
    (line : List GeoPoint) (p : GeoPoint)
    (hlen : 2 ≤ line.length) (hp : p ∈ line) :
    ∃ s : ℚ, minDistanceToPolylineMetersSq proj p line = some s ∧
      0 ≤ s ∧ s ≤ 1 / 1000000000 := by
  unfold minDistanceToPolylineMetersSq
  rw [if_neg (by omega)]
  rcases hL : (line.zip line.tail).map
      (fun ab => distPointToSegmentMetersSq proj p ab.1 ab.2) with _ | ⟨d, ds⟩
  · exfalso
    have hzlen : (line.zip line.tail).length = line.length - 1 := by
      rw [List.length_zip, List.length_tail]
      omega
    have : (line.zip line.tail).map
        (fun ab => distPointToSegmentMetersSq proj p ab.1 ab.2) ≠ [] := by
      intro hc
      have := congrArg List.length hc
      rw [List.length_map, hzlen] at this
      simp at this
      omega
    exact this hL
  · simp only [hL]
    refine ⟨ds.foldl min d, rfl, ?_, ?_⟩
    · refine le_foldl_min ds d 0 ?_ ?_
      · have hd : d ∈ (line.zip line.tail).map
            (fun ab => distPointToSegmentMetersSq proj p ab.1 ab.2) := by
          rw [hL]
          exact List.mem_cons_self d ds
        obtain ⟨ab, _, hab⟩ := List.mem_map.mp hd
        rw [← hab]
        exact distSq_nonneg proj p ab.1 ab.2
      · intro x hx
        have hxm : x ∈ (line.zip line.tail).map
            (fun ab => distPointToSegmentMetersSq proj p ab.1 ab.2) := by
          rw [hL]
          exact List.mem_cons_of_mem d hx
        obtain ⟨ab, _, hab⟩ := List.mem_map.mp hxm
        rw [← hab]
        exact distSq_nonneg proj p ab.1 ab.2
    · have hsmall : ∃ x ∈ (line.zip line.tail).map
          (fun ab => distPointToSegmentMetersSq proj p ab.1 ab.2),
          x ≤ 1 / 1000000000 := by
        rcases mem_adjacent line p hp hlen with ⟨b, hb⟩ | ⟨a, ha⟩
        · refine ⟨distPointToSegmentMetersSq proj p p b, List.mem_map.mpr ⟨(p, b), hb, rfl⟩, ?_⟩
          rw [distSq_self_left]
          norm_num
        · exact ⟨distPointToSegmentMetersSq proj p a p,
            List.mem_map.mpr ⟨(a, p), ha, rfl⟩, distSq_self_right proj p a⟩
      obtain ⟨x, hxm, hxle⟩ := hsmall
      rw [hL] at hxm
      rcases List.mem_cons.mp hxm with rfl | hxm
      · exact le_trans (foldl_min_le_head ds x) hxle
      · exact le_trans (foldl_min_le_mem ds d x hxm) hxle

/-- Witness for C8: the middle vertex of a concrete 3-point polyline under a
concrete linear projection. -/
theorem claim_C8_polyline_roundtrip_witness :
    (2 ≤ ([⟨0, 0⟩, ⟨0, 1⟩, ⟨1, 1⟩] : List GeoPoint).length ∧
      (⟨0, 1⟩ : GeoPoint) ∈ ([⟨0, 0⟩, ⟨0, 1⟩, ⟨1, 1⟩] : List GeoPoint)) ∧
    ∃ s : ℚ, minDistanceToPolylineMetersSq (fun g => (g.lng * 100000, g.lat * 100000))
        ⟨0, 1⟩ [⟨0, 0⟩, ⟨0, 1⟩, ⟨1, 1⟩] = some s ∧
      0 ≤ s ∧ s ≤ 1 / 1000000000 :=
  ⟨⟨by decide, by with_unfolding_all decide⟩,
   claim_C8_polyline_roundtrip (fun g => (g.lng * 100000, g.lat * 100000))
     [⟨0, 0⟩, ⟨0, 1⟩, ⟨1, 1⟩] ⟨0, 1⟩ (by decide) (by with_unfolding_all decide)⟩

end NavModel

namespace NavModel

/-! ### save_trace (supabase/functions/circuits-api/index.ts lines 28-38 and
311-358; client guard Portal.tsx lines 595-597) -/

/-- Hex digit test for the UUID regex character classes [0-9a-f] with the i
flag. -/
def isHexDigit (c : Char) : Bool := c.isDigit || "abcdefABCDEF".data.contains c

/-- Embedding of isUuid (circuits-api/index.ts lines 28-30): the regex
/^[0-9a-f]{8}-[0-9a-f]{4}-[1-5][0-9a-f]{3}-[89ab][0-9a-f]{3}-[0-9a-f]{12}$/i
checked position by position. -/
def isUuid (v : String) : Bool :=
  let cs := v.data
  cs.length == 36 &&
  (List.range 36).all (fun i =>
    match cs.get? i with
    | none => false
    | some c =>
      if i == 8 || i == 13 || i == 18 || i == 23 then c == '-'
      else if i == 14 then "12345".data.contains c
      else if i == 19 then "89abAB".data.contains c
      else isHexDigit c)

/-- One raw trail entry of the save_trace request body: each field may be
absent or not a finite number, modelled as none. -/
structure RawTracePoint where
  idx : Option ℚ
  lat : Option ℚ
  lng : Option ℚ
deriving DecidableEq, Repr

/-- Embedding of validLatLng (circuits-api/index.ts lines 32-38):
isFiniteNumber(lat) && isFiniteNumber(lng) && ranges. -/
def validLatLng (lat lng : Option ℚ) : Bool :=
  match lat, lng with
  | some a, some b =>
    decide (-90 ≤ a) && decide (a ≤ 90) && decide (-180 ≤ b) && decide (b ≤ 180)
  | _, _ => false

/-- One normalized trail point as written to circuit_traces. -/
structure NormPoint where
  idx : ℚ
  lat : ℚ
  lng : ℚ
deriving DecidableEq, Repr

/-- Embedding of the validation/normalization loop of save_trace
(circuits-api/index.ts lines 318-326): keep points with a valid lat/lng,
defaulting a non-finite idx to the loop position. -/
def normalizeTrail : ℕ → List RawTracePoint → List NormPoint
  | _, [] => []
  | i, p :: rest =>
    match p.lat, p.lng with
    | some a, some b =>
      if validLatLng (some a) (some b) then
        { idx := p.idx.getD (i : ℚ), lat := a, lng := b } :: normalizeTrail (i + 1) rest
      else normalizeTrail (i + 1) rest
    | _, _ => normalizeTrail (i + 1) rest

/-- The row upserted into circuit_traces, keyed by version_id
(onConflict version_id). -/
structure TraceRow where
  version_id : String
  trail : List NormPoint
  points_count : ℕ
  created_by : String
deriving DecidableEq, Repr

/-- Outcome of the save_trace handler: a 400 error response (nothing
persisted) or the upserted row. -/
inductive SaveTraceResult where
  | err (msg : String)
  | ok (row : TraceRow)
deriving DecidableEq, Repr

/-- Embedding of the save_trace action handler (circuits-api/index.ts lines
311-358).  getCreatedBy models the circuit_versions lookup: none when
.single() errors (no such version), some raw for the row's created_by
coerced to a string (null becoming "").  version_id models
String(body.version_id ?? ""), trail models the body's trail field (none
when not an array). -/
def save_trace (getCreatedBy : String → Option String)
    (version_id : Option String) (trail : Option (List RawTracePoint)) :
    SaveTraceResult :=
  let vid := (version_id.getD "").trim
  if !isUuid vid then .err "version_id invalide"
  else
    let tr := trail.getD []
    if tr.length < 10 then .err "trail manquant ou trop court"
    else
      let normalized := normalizeTrail 0 tr
      if normalized.length < 10 then .err "trail invalide (pas assez de points valides)"
      else
        match getCreatedBy vid with
        | none => .err "version introuvable"
        | some raw =>
          let createdBy := raw.trim
          if createdBy = "" || !isUuid createdBy then
            .err "created_by introuvable pour cette version"
          else
            .ok { version_id := vid, trail := normalized,
                  points_count := normalized.length, created_by := createdBy }

/-- Client-side guard of saveTraceNow (Portal.tsx lines 595-597): the RPC is
sent only when a version id is present and the trace has at least 20
points. -/
def saveTraceNowSends (versionId : Option String) (trace : List (ℚ × ℚ)) : Bool :=
  match versionId with
  | none => false
  | some _ => decide (¬ trace.length < 20)

/-! ### Claim C9 -/

/-- C9: saving a trace fails with an error — and no row is written — when
the trail has fewer than 10 points, and likewise when fewer than 10 points
survive lat/lng validation; a trail that meets the minimum and whose version
has a resolvable creator is upserted keyed by the version id; the recording
page additionally refuses to send a trace shorter than 20 points. -/
theorem claim_C9_save_trace :
    (∀ db vid trail, (trail.getD ([] : List RawTracePoint)).length < 10 →
      ∃ msg, save_trace db vid trail = SaveTraceResult.err msg) ∧
    (∀ db vid trail, (normalizeTrail 0 (trail.getD ([] : List RawTracePoint))).length < 10 →
      ∃ msg, save_trace db vid trail = SaveTraceResult.err msg) ∧
    (∀ db vid (tr : List RawTracePoint) (raw : String),
      isUuid ((vid : Option String).getD "").trim = true →
      ¬ tr.length < 10 → ¬ (normalizeTrail 0 tr).length < 10 →
      db ((vid.getD "").trim) = some raw → raw.trim ≠ "" → isUuid raw.trim = true →
      save_trace db vid (some tr) =
        SaveTraceResult.ok
          { version_id := (vid.getD "").trim, trail := normalizeTrail 0 tr,
            points_count := (normalizeTrail 0 tr).length, created_by := raw.trim }) ∧
    (∀ v trace, trace.length < 20 → saveTraceNowSends v trace = false) := by
  refine ⟨?_, ?_, ?_, ?_⟩
  · intro db vid trail hshort
    simp only [save_trace]
    split_ifs with h1
    · exact ⟨_, rfl⟩
    · exact ⟨_, rfl⟩
  · intro db vid trail hshort
    simp only [save_trace]
    split_ifs with h1 h2 h3
    · exact ⟨_, rfl⟩
    · exact ⟨_, rfl⟩
    · exact ⟨_, rfl⟩
  · intro db vid tr raw huuid hlen hnorm hdb hraw hruuid
    simp only [save_trace, Option.getD_some]
    rw [if_neg (by simp [huuid]), if_neg (by simpa using hlen), if_neg (by simpa using hnorm)]
    rw [hdb]
    simp [hraw, hruuid]
  · intro v trace hlen
    unfold saveTraceNowSends
    cases v with
    | none => rfl
    | some x => simp [hlen]

/-- Witness for C9: a 3-point trail is rejected; a 10-point valid trail with
a resolvable creator is upserted under its version id; a 19-point local
trace is not sent. -/
theorem claim_C9_save_trace_witness :
    (∃ msg, save_trace (fun _ => none)
        (some "12345678-1234-1234-89ab-123456789abc")
        (some (List.replicate 3 ⟨none, some 1, some 1⟩)) =
      SaveTraceResult.err msg) ∧
    save_trace (fun _ => some "12345678-1234-1234-89ab-123456789abc")
        (some "12345678-1234-1234-89ab-123456789abc")
        (some (List.replicate 10 ⟨none, some 1, some 1⟩)) =
      SaveTraceResult.ok
        { version_id := ((some "12345678-1234-1234-89ab-123456789abc").getD "").trim,
          trail := normalizeTrail 0 (List.replicate 10 ⟨none, some 1, some 1⟩),
          points_count := (normalizeTrail 0 (List.replicate 10 ⟨none, some 1, some 1⟩)).length,
          created_by := ("12345678-1234-1234-89ab-123456789abc" : String).trim } ∧
    saveTraceNowSends (some "v") (List.replicate 19 (1, 1)) = false :=
  ⟨claim_C9_save_trace.1 (fun _ => none)
      (some "12345678-1234-1234-89ab-123456789abc")
      (some (List.replicate 3 ⟨none, some 1, some 1⟩)) (by decide),
   claim_C9_save_trace.2.2.1 (fun _ => some "12345678-1234-1234-89ab-123456789abc")
      (some "12345678-1234-1234-89ab-123456789abc")
      (List.replicate 10 ⟨none, some 1, some 1⟩)
      "12345678-1234-1234-89ab-123456789abc"
      (by with_unfolding_all decide) (by decide) (by with_unfolding_all decide)
      rfl (by with_unfolding_all decide) (by with_unfolding_all decide),
   claim_C9_save_trace.2.2.2 (some "v") (List.replicate 19 (1, 1)) (by decide)⟩

end NavModel

namespace NavModel

/-! ### Recording session trace capture (Portal.tsx lines 264-268, 371-405,
557-565) -/

/-- Recording-session trace state: the captured trace (React state), the
throttle references lastTraceAtRef and lastTracePointRef, and the pause
flag.  TRACE_MIN_METERS = 8, TRACE_MIN_MS = 1200, TRACE_MAX_POINTS =
12000 (Portal.tsx lines 266-268). -/
structure RecState where
  trace : List (ℚ × ℚ)
  lastTraceAt : ℤ
  lastTracePoint : Option (ℚ × ℚ)
  tracePaused : Bool
deriving DecidableEq, Repr

/-- Trace cap (Portal.tsx line 403 and 563): splice off the front so that at
most 12000 points remain. -/
def capTrace (l : List (ℚ × ℚ)) : List (ℚ × ℚ) :=
  if 12000 < l.length then l.drop (l.length - 12000) else l

/-- Embedding of the automatic trace capture in the GPS watch callback
(Portal.tsx lines 371-405): skip when capture is paused, when less than
1200 ms elapsed since the last captured point, or when the displacement from
the last captured point is below 8 m; otherwise record the point and move
the throttle references.  dist abstracts haversineMeters (floating-point
trigonometry in the source). -/
def traceTick (dist : (ℚ × ℚ) → (ℚ × ℚ) → ℚ) (s : RecState) (now : ℤ)
    (curr : ℚ × ℚ) : RecState :=
  if s.tracePaused then s
  else if now - s.lastTraceAt < 1200 then s
  else if (match s.lastTracePoint with
           | some last => decide (dist curr last < 8)
           | none => false) then s
  else
    { s with
      lastTraceAt := now,
      lastTracePoint := some curr,
      trace := capTrace (s.trace ++ [curr]) }

/-- Trace effect of a completed add-stop action (Portal.tsx lines 557-565):
unconditionally append the stop's fix to the trace and reset the throttle
references to the stop's fix and the current time. -/
def addStopTrace (s : RecState) (now : ℤ) (pos : ℚ × ℚ) : RecState :=
  { s with
    lastTracePoint := some pos,
    lastTraceAt := now,
    trace := capTrace (s.trace ++ [pos]) }

/-- Appending then capping keeps the appended point at the end. -/
theorem capTrace_append_last (l : List (ℚ × ℚ)) (x : ℚ × ℚ) :
    ∃ l0, capTrace (l ++ [x]) = l0 ++ [x] := by
  unfold capTrace
  split_ifs with h
  · refine ⟨l.drop ((l ++ [x]).length - 12000), ?_⟩
    apply List.drop_append_of_le_length
    rw [List.length_append] at h ⊢
    simp only [List.length_singleton] at h ⊢
    omega
  · exact ⟨l, rfl⟩

/-! ### Claim C10 -/

/-- C10: a completed add-stop action always appends the current fix to the
trajectory trace (ending the trace with it) and resets the throttle
reference point and timestamp to the stop's fix and time, with no condition
on elapsed time or displacement — unlike the automatic capture, which drops
a point when paused, when less than 1200 ms have elapsed, or when the
displacement from the reference point is below 8 m; after an add-stop, the
automatic throttles measure from the stop's fix and time, so the trace is
not solely the throttled GPS stream. -/
theorem claim_C10_addStop_trace :
    (∀ s now pos, (addStopTrace s now pos).trace = capTrace (s.trace ++ [pos]) ∧
      (∃ l0, (addStopTrace s now pos).trace = l0 ++ [pos]) ∧
      (addStopTrace s now pos).lastTracePoint = some pos ∧
      (addStopTrace s now pos).lastTraceAt = now ∧
      (addStopTrace s now pos).tracePaused = s.tracePaused) ∧
    (∀ dist s now curr, s.tracePaused = true → traceTick dist s now curr = s) ∧
    (∀ dist s now curr, s.tracePaused = false → now - s.lastTraceAt < 1200 →
      traceTick dist s now curr = s) ∧
    (∀ dist s now curr last, s.tracePaused = false → ¬ now - s.lastTraceAt < 1200 →
      s.lastTracePoint = some last → dist curr last < 8 →
      traceTick dist s now curr = s) ∧
    (∀ dist s now pos now2 curr, s.tracePaused = false → now2 - now < 1200 →
      traceTick dist (addStopTrace s now pos) now2 curr = addStopTrace s now pos) ∧
    (∀ dist s now pos now2 curr, s.tracePaused = false → ¬ now2 - now < 1200 →
      dist curr pos < 8 →
      traceTick dist (addStopTrace s now pos) now2 curr = addStopTrace s now pos) := by
  have hpause : ∀ dist (s : RecState) now curr, s.tracePaused = true →
      traceTick dist s now curr = s := by
    intro dist s now curr hp
    unfold traceTick
    simp [hp]
  have htime : ∀ dist (s : RecState) now curr, s.tracePaused = false →
      now - s.lastTraceAt < 1200 → traceTick dist s now curr = s := by
    intro dist s now curr hp ht
    unfold traceTick
    simp [hp, ht]
  have hdist : ∀ dist (s : RecState) now curr last, s.tracePaused = false →
      ¬ now - s.lastTraceAt < 1200 → s.lastTracePoint = some last →
      dist curr last < 8 → traceTick dist s now curr = s := by
    intro dist s now curr last hp ht hl hd
    unfold traceTick
    simp [hp, ht, hl, hd]
  refine ⟨?_, hpause, htime, hdist, ?_, ?_⟩
  · intro s now pos
    exact ⟨rfl, capTrace_append_last s.trace pos, rfl, rfl, rfl⟩
  · intro dist s now pos now2 curr hp ht
    exact htime dist (addStopTrace s now pos) now2 curr hp ht
  · intro dist s now pos now2 curr hp ht hd
    exact hdist dist (addStopTrace s now pos) now2 curr pos hp ht rfl hd

/-- Witness for C10: with the reference time 1000 ms and a tick at 1500 ms
at zero displacement the automatic capture drops the point, while add-stop
at the same instant appends it and resets the references. -/
theorem claim_C10_addStop_trace_witness :
    ((addStopTrace ⟨[(0, 0)], 1000, some (0, 0), false⟩ 1500 (1, 1)).trace =
        capTrace ([(0, 0)] ++ [(1, 1)]) ∧
      (∃ l0, (addStopTrace ⟨[(0, 0)], 1000, some (0, 0), false⟩ 1500 (1, 1)).trace =
        l0 ++ [(1, 1)]) ∧
      (addStopTrace ⟨[(0, 0)], 1000, some (0, 0), false⟩ 1500 (1, 1)).lastTracePoint =
        some (1, 1) ∧
      (addStopTrace ⟨[(0, 0)], 1000, some (0, 0), false⟩ 1500 (1, 1)).lastTraceAt = 1500 ∧
      (addStopTrace ⟨[(0, 0)], 1000, some (0, 0), false⟩ 1500 (1, 1)).tracePaused =
        (⟨[(0, 0)], 1000, some (0, 0), false⟩ : RecState).tracePaused) ∧
    traceTick (fun _ _ => 0) ⟨[(0, 0)], 1000, some (0, 0), false⟩ 1500 (1, 1) =
      ⟨[(0, 0)], 1000, some (0, 0), false⟩ :=
  ⟨claim_C10_addStop_trace.1 ⟨[(0, 0)], 1000, some (0, 0), false⟩ 1500 (1, 1),
   claim_C10_addStop_trace.2.2.1 (fun _ _ => 0) ⟨[(0, 0)], 1000, some (0, 0), false⟩
     1500 (1, 1) rfl (by decide)⟩

end NavModel
